import Mathlib

/-
Verification development for the B747 load-planning engine.

The definitions below are a shallow embedding of the planner sources
(app/config.py, app/models.py, app/logic/*.py, app/planner/core_engine.py,
app/planner/math_solver.py).  Machine floats are modelled as rationals;
Python dicts with insertion order are modelled as association lists; Python
sets of SHC codes are modelled as duplicate-free lists where only membership
matters.  The external MIP solver (ortools SCIP) is modelled as an oracle
function; the constraints the wrapper imposes on it are captured by the
`ValidSolution` / `SolverOk` contract.  Human-readable message strings that
embed float formatting (":.1f" etc.) are reproduced up to that numeric
formatting; no theorem below depends on a formatted number inside a message.
-/

attribute [local semireducible] Rat.add Rat.mul Rat.sub Rat.inv Rat.ofScientific

namespace B747

/-- A box dimension entry, l/w/h in cm (models one dict of `CargoRequest.dims`). -/
structure Dim where
  l : ℚ
  w : ℚ
  h : ℚ
deriving DecidableEq, Repr

/-- models.CargoRequest. -/
structure CargoRequest where
  id : String
  destination : String
  weight : ℚ
  volume : ℚ
  pieces : ℕ
  dims : List Dim := []
  shc : List String := []
  assigned_uld_type : Option String := none
deriving DecidableEq, Repr

/-- models.CargoRequest.max_height: 0 when no dims, else max of the h entries. -/
def CargoRequest.max_height (c : CargoRequest) : ℚ :=
  match c.dims with
  | [] => 0
  | d :: ds => (ds.map (fun x => x.h)).foldl max d.h

/-- models.PackedULD. -/
structure PackedULD where
  id : String
  uld_type : String
  contour : String
  destination : String
  items : List CargoRequest := []
  total_weight : ℚ := 0
  total_volume : ℚ := 0
  is_pure : Bool := false
  status : String := "OPEN"
  shc_codes : List String := []
  assigned_position : Option String := none
  assigned_arm : ℚ := 0
  shoring_weight : ℚ := 0
  shoring_note : String := ""
deriving DecidableEq, Repr

/-- models.ForcedGroup. -/
structure ForcedGroup where
  group_id : String
  cargo_ids : List String
  target_uld_type : String
  max_uld_count : ℕ
deriving DecidableEq, Repr

/-- models.PlanningFeedback. -/
structure PlanningFeedback where
  group_id : String
  message : String
  remaining_cargos : List CargoRequest
deriving DecidableEq, Repr

/-- config.SystemConfig.PACKING_LOSS_FACTOR. -/
def PACKING_LOSS_FACTOR : ℚ := 0.85

/-- config.SystemConfig.SHORING_DENSITY (kg/m3). -/
def SHORING_DENSITY : ℚ := 600

/-- config.SystemConfig.FLOOR_LIMIT_KG_M2. -/
def FLOOR_LIMIT_KG_M2 : ℚ := 976

/-- One entry of config.ULDLibrary.SPECS. -/
structure ULDSpec where
  code : String
  contour : String
  max_gross : ℚ
  tare : ℚ
  max_vol : ℚ
  len : ℚ
  wid : ℚ
deriving DecidableEq, Repr

/-- config.ULDLibrary.SPECS (dict lookup; `none` models a KeyError / .get miss). -/
def SPECS (t : String) : Option ULDSpec :=
  if t = "M" then some ⟨"PMC-Q6", "Q6", 6804, 120, 19, 125, 96⟩
  else if t = "M_Q7" then some ⟨"PMC-Q7", "Q7", 6804, 120, 24, 125, 96⟩
  else if t = "A" then some ⟨"PAG", "Q6", 6033, 110, 17, 125, 88⟩
  else if t = "R" then some ⟨"PRA", "FLAT", 11340, 400, 27, 196, 96⟩
  else if t = "G" then some ⟨"PGA", "FLAT", 13608, 500, 33, 238.5, 96⟩
  else if t = "K" then some ⟨"AKE", "LD3", 1587, 90, 4.3, 61.5, 60.4⟩
  else if t = "M_LOWER" then some ⟨"PMC-LD", "LOWER", 5035, 120, 11.5, 125, 96⟩
  else if t = "A_LOWER" then some ⟨"PAG-LD", "LOWER", 4626, 110, 10.5, 125, 88⟩
  else none

/-- models.PackedULD.gross_weight: total + tare (0 on missing spec) + shoring. -/
def PackedULD.gross_weight (u : PackedULD) : ℚ :=
  u.total_weight + (match SPECS u.uld_type with | some sp => sp.tare | none => 0) +
    u.shoring_weight

/-- Python `int(q)`: truncation toward zero. -/
def pyInt (q : ℚ) : ℤ := if 0 ≤ q then ⌊q⌋ else ⌈q⌉

/-- Python `a // b` followed by `int(...)` (floor division on non-negative operands). -/
def pyFloorDiv (a b : ℚ) : ℤ := ⌊a / b⌋

/-- Character-list prefix test (models Python str.startswith). -/
def leadsWith : List Char → List Char → Bool
  | [], _ => true
  | _ :: _, [] => false
  | a :: as, b :: bs => a == b && leadsWith as bs

/-- String prefix test: `strLeads p s` iff `s` starts with `p`. -/
def strLeads (p s : String) : Bool := leadsWith p.toList s.toList

/-- Character-list infix search helper. -/
def hasSeq (p : List Char) : List Char → Bool
  | [] => leadsWith p []
  | c :: rest => leadsWith p (c :: rest) || hasSeq p rest

/-- Substring test: models Python `p in s`. -/
def containsSeq (p s : String) : Bool := hasSeq p.toList s.toList

/-- Python f-string "{n:03d}". -/
def pad3 (n : ℕ) : String :=
  if n < 10 then "00" ++ toString n
  else if n < 100 then "0" ++ toString n
  else toString n

/-- Python truthiness of an optional string (None and "" are falsy). -/
def truthyStr : Option String → Bool
  | none => false
  | some s => s ≠ ""

/-- One aircraft position entry of config.AircraftMap (field `kind` is the
source dict key "type"). -/
structure PosInfo where
  deck : String
  kind : String
  arm : ℚ
  conflicts : List String
deriving DecidableEq, Repr

/-- config.AircraftMap.CENTROIDS. -/
def CENTROIDS (z : String) : ℚ :=
  if z = "A" then 320 else if z = "B" then 453 else if z = "C" then 588
  else if z = "D" then 714 else if z = "E" then 840 else if z = "F" then 966
  else if z = "G" then 1092 else if z = "H" then 1218 else if z = "J" then 1344
  else if z = "K" then 1470 else if z = "L" then 1596 else if z = "M" then 1722
  else if z = "P" then 1848 else if z = "Q" then 1939 else if z = "R" then 2029
  else if z = "S" then 2155 else if z = "T" then 2296 else 0

/-- config.AircraftMap.ROW_ZONES. -/
def ROW_ZONES : List String :=
  ["C", "D", "E", "F", "G", "H", "J", "K", "L", "M", "P", "Q", "R", "S"]

/-- The fixed main-deck positions written literally before the row loop in
AircraftMap.initialize_maps. -/
def basePositions : List (String × PosInfo) :=
  [("A1", ⟨"Main", "Center", 320, []⟩),
   ("A2", ⟨"Main", "Center", 379, []⟩),
   ("B", ⟨"Main", "Center", 453, []⟩),
   ("T", ⟨"Main", "Center", 2296, []⟩)]

/-- One iteration of the row loop in AircraftMap.initialize_maps: positions
zL, zR, zC for row zone `z` at index `i`. -/
def rowBlock (i : ℕ) (z : String) : List (String × PosInfo) :=
  let arm := CENTROIDS z
  let conflictsC := [z ++ "L", z ++ "R"] ++
    (match ROW_ZONES.get? (i + 1) with
     | some nz => [nz ++ "L", nz ++ "R", nz ++ "C"]
     | none => [])
  [(z ++ "L", ⟨"Main", "Left", arm, [z ++ "C"]⟩),
   (z ++ "R", ⟨"Main", "Right", arm, [z ++ "C"]⟩),
   (z ++ "C", ⟨"Main", "Center", arm, conflictsC⟩)]

/-- config.AircraftMap.MAIN_POSITIONS after initialize_maps (insertion order
of the Python dict; DISABLED_POSITIONS is empty so the filter is identity). -/
def MAIN_POSITIONS : List (String × PosInfo) :=
  basePositions ++ (ROW_ZONES.enum.map (fun p => rowBlock p.1 p.2)).flatten

/-- config.AircraftMap.LOWER_POSITIONS. -/
def LOWER_POSITIONS : List (String × PosInfo) :=
  [("11P", ⟨"Lower", "Center", 513.2, ["11L", "11R"]⟩),
   ("11L", ⟨"Lower", "Left", 510.4, ["11P"]⟩),
   ("11R", ⟨"Lower", "Right", 510.4, ["11P"]⟩),
   ("12P", ⟨"Lower", "Center", 610.2, ["12L", "12R", "13L", "13R"]⟩),
   ("12L", ⟨"Lower", "Left", 571.6, ["12P"]⟩),
   ("12R", ⟨"Lower", "Right", 571.6, ["12P"]⟩),
   ("13L", ⟨"Lower", "Left", 632.9, ["12P"]⟩),
   ("13R", ⟨"Lower", "Right", 632.9, ["12P"]⟩),
   ("21P", ⟨"Lower", "Center", 744.7, ["21L", "21R", "22L", "22R"]⟩),
   ("21L", ⟨"Lower", "Left", 713.9, ["21P"]⟩),
   ("21R", ⟨"Lower", "Right", 713.9, ["21P"]⟩),
   ("22L", ⟨"Lower", "Left", 774.4, ["21P"]⟩),
   ("22R", ⟨"Lower", "Right", 774.4, ["21P"]⟩),
   ("22P", ⟨"Lower", "Center", 841.7, ["23L", "23R"]⟩),
   ("23L", ⟨"Lower", "Left", 834.9, ["22P"]⟩),
   ("23R", ⟨"Lower", "Right", 834.9, ["22P"]⟩),
   ("23P", ⟨"Lower", "Center", 938.7, ["24L", "24R", "25L", "25R"]⟩),
   ("24L", ⟨"Lower", "Left", 895.4, ["23P"]⟩),
   ("24R", ⟨"Lower", "Right", 895.4, ["23P"]⟩),
   ("25L", ⟨"Lower", "Left", 956.4, ["23P"]⟩),
   ("25R", ⟨"Lower", "Right", 956.4, ["23P"]⟩),
   ("31P", ⟨"Lower", "Center", 1534.6, ["31L", "31R", "32L", "32R"]⟩),
   ("31L", ⟨"Lower", "Left", 1517.0, ["31P"]⟩),
   ("31R", ⟨"Lower", "Right", 1517.0, ["31P"]⟩),
   ("32L", ⟨"Lower", "Left", 1577.4, ["31P"]⟩),
   ("32R", ⟨"Lower", "Right", 1577.4, ["31P"]⟩),
   ("32P", ⟨"Lower", "Center", 1631.6, ["33L", "33R"]⟩),
   ("33L", ⟨"Lower", "Left", 1637.9, ["32P"]⟩),
   ("33R", ⟨"Lower", "Right", 1637.9, ["32P"]⟩),
   ("41P", ⟨"Lower", "Center", 1728.6, ["41L", "41R", "42L", "42R"]⟩),
   ("41L", ⟨"Lower", "Left", 1698.4, ["41P"]⟩),
   ("41R", ⟨"Lower", "Right", 1698.4, ["41P"]⟩),
   ("42L", ⟨"Lower", "Left", 1758.9, ["41P"]⟩),
   ("42R", ⟨"Lower", "Right", 1758.9, ["41P"]⟩),
   ("42P", ⟨"Lower", "Center", 1825.6, ["43L", "43R"]⟩),
   ("43L", ⟨"Lower", "Left", 1820.6, ["42P"]⟩),
   ("43R", ⟨"Lower", "Right", 1820.6, ["42P"]⟩),
   ("44L", ⟨"Lower", "Left", 1882.4, []⟩),
   ("44R", ⟨"Lower", "Right", 1882.4, []⟩),
   ("45L", ⟨"Lower", "Left", 1944.2, []⟩),
   ("45R", ⟨"Lower", "Right", 1944.2, []⟩)]

/-- config.AircraftMap.LINEAR_LIMITS: (start arm, end arm, kg/inch). -/
def LINEAR_LIMITS : List (ℚ × ℚ × ℚ) :=
  [(0, 525, 38.5), (525, 1000, 77.1), (1000, 1480, 131.5),
   (1480, 1920, 77.1), (1920, 2500, 16.3)]

/-- Scan of LINEAR_LIMITS in AircraftMap.get_linear_limit. -/
def linearLookup (arm : ℚ) : List (ℚ × ℚ × ℚ) → ℚ
  | [] => 16.3
  | (s, e, l) :: rest => if s ≤ arm ∧ arm < e then l else linearLookup arm rest

/-- config.AircraftMap.get_linear_limit. -/
def get_linear_limit (arm : ℚ) : ℚ := linearLookup arm LINEAR_LIMITS

/-- One entry of config.AircraftMap.ZONE_LIMITS. -/
structure ZoneLimit where
  zname : String
  zstart : ℚ
  zend : ℚ
  limit : ℚ
deriving DecidableEq, Repr

/-- config.AircraftMap.ZONE_LIMITS. -/
def ZONE_LIMITS : List ZoneLimit :=
  [⟨"FWD_LOWER", 360, 1000, 27669⟩,
   ⟨"AFT_LOWER", 1480, 1900, 26081⟩,
   ⟨"BULK", 1900, 2160, 4408⟩,
   ⟨"WINGBOX", 1000, 1480, 45000⟩]

/-- Result record of Gatekeeper.validate_door_entry. -/
structure DoorCheck where
  pass : Bool
  entry_point : String
  reason : String
deriving DecidableEq, Repr

/-- Python `max(seq, key=k)`: first element attaining the maximum key. -/
def argmaxBy (k : Dim → ℚ) (d : Dim) (ds : List Dim) : Dim :=
  ds.foldl (fun best x => if k best < k x then x else best) d

/-- logic/gatekeeper.py Gatekeeper.validate_door_entry.  The failure reason
reproduces the f-string up to Python's `int` formatting of the two dims. -/
def validate_door_entry (c : CargoRequest) : DoorCheck :=
  match c.dims with
  | [] => ⟨true, "Loose", "No dims provided"⟩
  | d :: ds =>
    let piece := argmaxBy (fun x => x.l * x.w * x.h) d ds
    let s := List.insertionSort (fun a b : ℚ => a ≤ b) [piece.l, piece.w, piece.h]
    let min_dim := s.getD 0 0
    let mid_dim := s.getD 1 0
    if mid_dim ≤ 167 ∧ min_dim ≤ 264 then ⟨true, "Lower", "Fits Lower Door"⟩
    else if mid_dim ≤ 305 ∧ min_dim ≤ 340 then ⟨true, "Main-SCD", "Fits Main Side Door"⟩
    else if mid_dim ≤ 244 ∧ min_dim ≤ 269 then ⟨true, "Main-Nose", "Fits Nose Door"⟩
    else ⟨false, "None",
      "Dims " ++ toString (pyInt min_dim) ++ "x" ++ toString (pyInt mid_dim) ++
        "cm exceed all doors."⟩

/-- logic/segregation.py SegregationEngine.CONFLICTS. -/
def CONFLICTS (s : String) : List String :=
  if s = "RXB" then ["GEN", "RCX", "RFL"]
  else if s = "AVI" then ["RRY", "ICE", "HUM"]
  else if s = "HUM" then ["EAT", "PES"]
  else if s = "EAT" then ["HUM", "RPB", "RIS"]
  else []

/-- logic/segregation.py SegregationEngine.check_mix: a new SHC mixes with an
existing set iff neither direction's conflict list hits the other. -/
def check_mix (existing : List String) (new_shc : String) : Bool :=
  (CONFLICTS new_shc).all (fun bad => !(existing.contains bad)) &&
  existing.all (fun e => !((CONFLICTS e).contains new_shc))

/-- The call-site pattern `all(check_mix(uld.shc_codes, s) for s in cargo.shc)`. -/
def checkMixAll (codes : List String) (c : CargoRequest) : Bool :=
  c.shc.all (fun s => check_mix codes s)

/-- Result record of ShoringEngine.calculate_shoring_needs. -/
structure ShoringResult where
  needed : Bool
  weight : ℚ
  height : ℚ
  reasons : List String
deriving DecidableEq, Repr

/-- logic/shoring.py ShoringEngine.calculate_shoring_needs.  Reason strings
are kept without their interpolated numbers.  In branch C the source updates
weight/height/reasons but not the `needed` flag; that is reproduced. -/
def calculate_shoring_needs (c : CargoRequest) (uld_type : String) (arm : ℚ) :
    ShoringResult :=
  match c.dims with
  | [] => ⟨false, 0, 0, []⟩
  | d0 :: ds =>
    let dim := argmaxBy (fun x => x.l * x.w) d0 ds
    let c_len := dim.l
    let c_wid := dim.w
    let c_wgt := c.weight / (c.pieces : ℚ)
    let area_m2 := c_len * c_wid / 10000
    let pressure := if area_m2 = 0 then 99999 else c_wgt / area_m2
    let r1 : ShoringResult :=
      if FLOOR_LIMIT_KG_M2 < pressure then
        match SPECS uld_type with
        | some sp =>
          let full_base_m2 := sp.len * 2.54 * (sp.wid * 2.54) / 10000
          let w_cost := full_base_m2 * 0.02 * SHORING_DENSITY
          ⟨true, w_cost, 2, ["Area Load"]⟩
        | none => ⟨false, 0, 0, []⟩
      else ⟨false, 0, 0, []⟩
    let limit_linear := get_linear_limit arm
    let actual_linear := c_wgt / (c_len / 2.54)
    let r2 : ShoringResult :=
      if limit_linear < actual_linear then
        let req_len_in := c_wgt / limit_linear
        let req_len_cm := req_len_in * 2.54
        let vol_m3 := 3 * 0.1 * (req_len_cm / 100) * 0.1
        ⟨true, r1.weight + vol_m3 * SHORING_DENSITY, r1.height + 10,
          r1.reasons ++ ["Linear Load"]⟩
      else r1
    if containsSeq "LOWER" uld_type ∧ 244 < c_wid then
      let overhang := (c_wid - 244) / 2
      let req_h := overhang / 1.5 + 5
      if r2.height < req_h then
        let diff := req_h - r2.height
        let vol_m3 := area_m2 * (diff / 100)
        ⟨r2.needed, r2.weight + vol_m3 * SHORING_DENSITY, req_h,
          r2.reasons ++ ["Contour Overhang"]⟩
      else r2
    else r2

/-- Result record of ShoringEngine.recommend_type (`rtype` is the dict key
"type"). -/
structure TypeRec where
  rtype : String
  contour : String
  reason : String
  floating : Bool
deriving DecidableEq, Repr

/-- logic/shoring.py ShoringEngine.recommend_type. -/
def recommend_type (c : CargoRequest) : TypeRec :=
  let weight := c.weight
  let lim_m := ((SPECS "M").map (fun sp => sp.max_gross)).getD 0
  let lim_r := ((SPECS "R").map (fun sp => sp.max_gross)).getD 0
  let lim_g := ((SPECS "G").map (fun sp => sp.max_gross)).getD 0
  if 0 < c.max_height ∧ c.max_height ≤ 163 then
    if weight < 1500 ∧ c.volume < 4 then ⟨"K", "LD3", "Lower Container", false⟩
    else ⟨"M_LOWER", "LOWER", "Lower Pallet", false⟩
  else if lim_g < weight then
    ⟨"G", "FLAT", "Floating Load (Requires Aircraft Tie-down)", true⟩
  else if lim_r < weight then ⟨"G", "FLAT", "20ft", false⟩
  else if lim_m < weight then ⟨"R", "FLAT", "16ft", false⟩
  else ⟨"M", "Q6", "Standard", false⟩

/-- core_engine.py DimensionalPacker.calc_max_pieces_per_uld. -/
def calc_max_pieces_per_uld (l w h : ℚ) (uld_type : String) : ℤ :=
  match SPECS uld_type with
  | none => 0
  | some sp =>
    let uld_L := sp.len * 2.54
    let uld_W := sp.wid * 2.54
    let uld_H0 : ℚ :=
      if sp.contour = "Q6" then 244 else if sp.contour = "Q7" then 300 else 160
    let uld_H := if uld_type = "M_LOWER" then 163 else uld_H0
    if uld_H < h ∨ uld_L < l ∨ uld_W < w then 0
    else
      let base1 := pyFloorDiv uld_L l * pyFloorDiv uld_W w
      let base2 := pyFloorDiv uld_L w * pyFloorDiv uld_W l
      let tiers := if 0 < h then pyFloorDiv uld_H h else 1
      max base1 base2 * tiers

/-- logic/structural.py StructuralEngine.check_linear_load (the boolean part
of the (bool, msg) pair). -/
def check_linear_load (u : PackedULD) (arm : ℚ) : Bool :=
  match SPECS u.uld_type with
  | none => false
  | some sp => u.gross_weight / sp.len ≤ get_linear_limit arm

/-- Sum of gross weights of the assigned ULDs whose arm lies in [s, e]
(StructuralEngine.check_zone_limits inner accumulation; unassigned and
UNASSIGNED ULDs are skipped, matching the source's truthiness test). -/
def zoneWeight (ulds : List PackedULD) (s e : ℚ) : ℚ :=
  (ulds.filter (fun u =>
      truthyStr u.assigned_position && u.assigned_position ≠ some "UNASSIGNED" &&
      decide (s ≤ u.assigned_arm ∧ u.assigned_arm ≤ e))).foldl
    (fun a u => a + u.gross_weight) 0

/-- logic/structural.py StructuralEngine.check_zone_limits; warning strings
are kept without their interpolated weights. -/
def check_zone_limits (ulds : List PackedULD) : List String :=
  (ZONE_LIMITS.filter (fun z => z.limit < zoneWeight ulds z.zstart z.zend)).map
    (fun z => "Zone " ++ z.zname ++ " Overweight!")

/-- One entry of CorePlanningEngine.rejected_cargos. -/
structure RejEntry where
  id : String
  reason : String
deriving DecidableEq, Repr

/-- The mutable planning state of CorePlanningEngine. -/
structure EngineState where
  packed_ulds : List PackedULD
  rejected_cargos : List RejEntry
  action_required : List PlanningFeedback
deriving DecidableEq, Repr

/-- CorePlanningEngine._explode_cargos, one request. -/
def explodeOne (c : CargoRequest) : List CargoRequest :=
  if 1 < c.pieces then
    (List.range c.pieces).map (fun i =>
      { id := c.id ++ "-" ++ toString (i + 1), destination := c.destination,
        weight := c.weight / (c.pieces : ℚ), volume := c.volume / (c.pieces : ℚ),
        pieces := 1, dims := c.dims, shc := c.shc,
        assigned_uld_type := c.assigned_uld_type })
  else [c]

/-- CorePlanningEngine._explode_cargos. -/
def explodeCargos (cs : List CargoRequest) : List CargoRequest :=
  (cs.map explodeOne).flatten

/-- The repeated mutation pattern `uld.items.append(cargo);
uld.total_weight += ...; uld.total_volume += ...; uld.shc_codes.update(...)`. -/
def addItem (u : PackedULD) (c : CargoRequest) : PackedULD :=
  { u with items := u.items ++ [c],
           total_weight := u.total_weight + c.weight,
           total_volume := u.total_volume + c.volume,
           shc_codes := c.shc.foldl
             (fun acc s => if s ∈ acc then acc else acc ++ [s]) u.shc_codes }

/-- First-fit placement over the pre-allocated group ULDs inside
_pack_forced_group (weight cap, volume cap, then segregation). -/
def tryPlaceGroup (maxNet effVol : ℚ) (c : CargoRequest) :
    List PackedULD → Option (List PackedULD)
  | [] => none
  | u :: us =>
    if u.total_weight + c.weight ≤ maxNet ∧ u.total_volume + c.volume ≤ effVol ∧
        checkMixAll u.shc_codes c then
      some (addItem u c :: us)
    else (tryPlaceGroup maxNet effVol c us).map (fun us2 => u :: us2)

/-- The first-fit-decreasing loop of _pack_forced_group: returns the filled
group ULDs and the leftover cargos in scan order. -/
def forcedFit (maxNet effVol : ℚ) :
    List PackedULD → List CargoRequest → List PackedULD × List CargoRequest
  | ulds, [] => (ulds, [])
  | ulds, c :: cs =>
    match tryPlaceGroup maxNet effVol c ulds with
    | some ulds2 => forcedFit maxNet effVol ulds2 cs
    | none =>
      let r := forcedFit maxNet effVol ulds cs
      (r.1, c :: r.2)

/-- One pre-allocated empty group ULD `FRC-{gid}-{i+1}`. -/
def mkGroupULD (g : ForcedGroup) (sp : ULDSpec) (dest : String) (i : ℕ) :
    PackedULD :=
  { id := "FRC-" ++ g.group_id ++ "-" ++ toString (i + 1),
    uld_type := g.target_uld_type, contour := sp.contour, destination := dest }

/-- Stable descending sort key of _pack_forced_group:
`sorted(key=(weight, volume), reverse=True)`. -/
def wvDesc (a b : CargoRequest) : Prop :=
  b.weight < a.weight ∨ (b.weight = a.weight ∧ b.volume ≤ a.volume)

instance : DecidableRel wvDesc := fun a b => by
  unfold wvDesc; infer_instance

/-- core_engine.py CorePlanningEngine._pack_forced_group.  A missing spec
returns the state unchanged (source: early return).  The overflow message is
reproduced without its ":.1f" weight. -/
def packForcedGroup (st : EngineState) (g : ForcedGroup) (cs : List CargoRequest) :
    EngineState :=
  match SPECS g.target_uld_type with
  | none => st
  | some sp =>
    match cs with
    | [] => st
    | c0 :: _ =>
      let effVol := sp.max_vol * PACKING_LOSS_FACTOR
      let maxNet := sp.max_gross - sp.tare
      let groupUlds := (List.range g.max_uld_count).map (mkGroupULD g sp c0.destination)
      let sortedCs := List.insertionSort wvDesc cs
      let r := forcedFit maxNet effVol groupUlds sortedCs
      let newUlds := (r.1.filter (fun u => u.items ≠ [])).map
        (fun u => { u with status := "CLOSED", is_pure := true })
      let st1 := { st with packed_ulds := st.packed_ulds ++ newUlds }
      if r.2 ≠ [] then
        { st1 with action_required := st1.action_required ++
            [⟨g.group_id,
              "Group " ++ g.group_id ++ " overflow: " ++ toString r.2.length ++ " pcs.",
              r.2⟩] }
      else st1

/-- The `while pcs_left > 0` loop of _pack_3d_cargo.  The first argument is
iteration fuel: every executed pass packs at least one piece, so calling with
fuel = pcs runs the loop to completion exactly as the source does. -/
def pack3DLoop (sp : ULDSpec) (cargo : CargoRequest) (t : String) (perW perV : ℚ)
    (maxPcs : ℕ) : ℕ → EngineState → ℕ → EngineState
  | 0, st, _ => st
  | _ + 1, st, 0 => st
  | fuel + 1, st, pcs + 1 =>
    let maxByWeight : ℤ := pyFloorDiv (sp.max_gross - sp.tare) perW
    if maxByWeight ≤ 0 then
      { st with rejected_cargos := st.rejected_cargos ++
          [⟨cargo.id ++ "-rem", "Single piece too heavy"⟩] }
    else
      let pcsThis : ℕ := min (pcs + 1) (min maxPcs maxByWeight.toNat)
      if pcsThis = 0 then st
      else
        let chunk : CargoRequest :=
          { id := cargo.id ++ " (" ++ toString pcsThis ++ "p)",
            destination := cargo.destination,
            weight := perW * pcsThis, volume := perV * pcsThis,
            pieces := pcsThis, dims := cargo.dims, shc := cargo.shc }
        let uld0 : PackedULD :=
          { id := "3D-" ++ pad3 (st.packed_ulds.length + 1), uld_type := t,
            contour := sp.contour, destination := cargo.destination }
        let uld1 := addItem uld0 chunk
        let uld2 :=
          { uld1 with status :=
              if sp.max_gross * (0.95 : ℚ) ≤ uld1.total_weight + sp.tare
              then "CLOSED" else "OPEN" }
        pack3DLoop sp cargo t perW perV maxPcs fuel
          { st with packed_ulds := st.packed_ulds ++ [uld2] } (pcs + 1 - pcsThis)

/-- core_engine.py CorePlanningEngine._pack_3d_cargo.  Callers guarantee
non-empty dims and a recommended type with a spec; those impossible branches
return the state unchanged. -/
def pack3DCargo (st : EngineState) (cargo : CargoRequest) (suggested : String) :
    EngineState :=
  match cargo.dims with
  | [] => st
  | dim :: _ =>
    let mp := calc_max_pieces_per_uld dim.l dim.w dim.h suggested
    if mp ≤ 0 then
      { st with rejected_cargos := st.rejected_cargos ++
          [⟨cargo.id, "Dims cannot fit " ++ suggested⟩] }
    else
      match SPECS suggested with
      | none => st
      | some sp =>
        pack3DLoop sp cargo suggested (cargo.weight / (cargo.pieces : ℚ))
          (cargo.volume / (cargo.pieces : ℚ)) mp.toNat cargo.pieces st cargo.pieces

/-- The first-fit merge scan of _heuristic_pack over self.packed_ulds. -/
def heurMerge (c : CargoRequest) (target : String) (maxGross : ℚ) :
    List PackedULD → Option (List PackedULD)
  | [] => none
  | u :: us =>
    if u.uld_type = target ∧ u.status = "OPEN" ∧ u.destination = c.destination ∧
        checkMixAll u.shc_codes c ∧ u.gross_weight + c.weight ≤ maxGross then
      some (addItem u c :: us)
    else (heurMerge c target maxGross us).map (fun us2 => u :: us2)

/-- core_engine.py CorePlanningEngine._heuristic_pack.  The target type is
`cargo.assigned_uld_type or rec["type"]` (Python truthiness: None and ""
fall back to the recommendation).  A missing spec for the target — where the
source would raise KeyError — returns the state unchanged; the claims only
quantify over inputs whose referenced ULD types have a spec. -/
def heuristicPack (st : EngineState) (cargo : CargoRequest) (isFloating : Bool) :
    EngineState :=
  let rec2 := recommend_type cargo
  let target :=
    match cargo.assigned_uld_type with
    | some t => if t = "" then rec2.rtype else t
    | none => rec2.rtype
  match SPECS target with
  | none => st
  | some sp =>
    let merged := if isFloating then none
                  else heurMerge cargo target sp.max_gross st.packed_ulds
    match merged with
    | some ulds => { st with packed_ulds := ulds }
    | none =>
      let nid := (if isFloating then "FLT-" else "SPL-") ++
        pad3 (st.packed_ulds.length + 1)
      let u0 : PackedULD :=
        { id := nid, uld_type := target, contour := sp.contour,
          destination := cargo.destination }
      let u1 := if isFloating
                then { u0 with status := "CLOSED", shoring_note := "FLOATING LOAD" }
                else u0
      { st with packed_ulds := st.packed_ulds ++ [addItem u1 cargo] }

/-- Phase-1 body of plan_flight for one remaining cargo: door check, type
recommendation, shoring application, then special/3D/standard routing. -/
def phase1Step (acc : EngineState × List CargoRequest) (c : CargoRequest) :
    EngineState × List CargoRequest :=
  let st := acc.1
  let door := validate_door_entry c
  if ¬ door.pass then
    ({ st with rejected_cargos := st.rejected_cargos ++ [⟨c.id, door.reason⟩] }, acc.2)
  else
    let rec1 := recommend_type c
    if rec1.rtype = "ERROR" then
      ({ st with rejected_cargos := st.rejected_cargos ++ [⟨c.id, rec1.reason⟩] }, acc.2)
    else
      let shore := calculate_shoring_needs c rec1.rtype 320
      let c2 :=
        if shore.needed then
          { c with weight := c.weight + shore.weight,
                   dims := match c.dims with
                           | [] => []
                           | d :: ds => { d with h := d.h + shore.height } :: ds }
        else c
      let isSpecial := truthyStr c2.assigned_uld_type ∨
        rec1.rtype ∉ (["M", "M_LOWER", "K"] : List String) ∨
        c2.shc ≠ [] ∨ shore.needed ∨ rec1.floating
      if isSpecial then (heuristicPack st c2 rec1.floating, acc.2)
      else if c2.dims ≠ [] then (pack3DCargo st c2 rec1.rtype, acc.2)
      else (st, acc.2 ++ [c2])

/-- The per-group match `any(c.id.startswith(gid) for gid in group.cargo_ids)`. -/
def matchesGroup (g : ForcedGroup) (c : CargoRequest) : Bool :=
  g.cargo_ids.any (fun gid => strLeads gid c.id)

/-- Phase 0 of plan_flight: each forced group packs the cargos whose id starts
with one of its cargo ids, and their ids are marked processed. -/
def phase0 (exploded : List CargoRequest) (gs : List ForcedGroup)
    (st : EngineState) : EngineState × List String :=
  gs.foldl (fun acc g =>
    let matched := exploded.filter (matchesGroup g)
    if matched ≠ [] then (packForcedGroup acc.1 g matched, acc.2 ++ matched.map (fun c => c.id))
    else acc) (st, [])

/-- The external MIP solver modelled as an oracle: given the homogeneous cargo
list and the target ULD type it may return an assignment of cargos to bins
(`none` models a not-optimal/not-feasible solver status).  math_solver.py only
constrains a returned solution; `SolverOk` below states that contract. -/
def SolverFun : Type :=
  List CargoRequest → String → Option (List (List CargoRequest))

/-- math_solver.py bin upper bound: `int((sum(volume)/cap_v)*1.2) + 2`. -/
def maxBins (cs : List CargoRequest) (t : String) : ℤ :=
  match SPECS t with
  | none => 2
  | some sp =>
    let capV := sp.max_vol * PACKING_LOSS_FACTOR
    pyInt (cs.foldl (fun a c => a + c.volume) 0 / capV * 1.2) + 2

/-- math_solver.py MathematicalPlanner.optimize: build one TEMP ULD per
non-empty selected bin of the solver's solution. -/
def optimize (solver : SolverFun) (cs : List CargoRequest) (t : String) :
    List PackedULD :=
  if cs = [] then []
  else
    match SPECS t, solver cs t with
    | some sp, some bins =>
      bins.filterMap (fun b =>
        match b with
        | [] => none
        | c0 :: _ => some (b.foldl addItem
            { id := "TEMP", uld_type := t, contour := sp.contour,
              destination := c0.destination }))
    | _, _ => []

/-- Phase-2 re-explosion inside _smart_batch_optimize (clones carry no dims). -/
def reExplode (cs : List CargoRequest) : List CargoRequest :=
  (cs.map (fun c =>
    if 1 < c.pieces then
      (List.range c.pieces).map (fun i =>
        { id := c.id ++ "-" ++ toString (i + 1), destination := c.destination,
          weight := c.weight / (c.pieces : ℚ), volume := c.volume / (c.pieces : ℚ),
          pieces := 1, dims := [], shc := c.shc })
    else [c])).flatten

/-- Destination grouping of _smart_batch_optimize (dict insertion order). -/
def groupByDest (cs : List CargoRequest) : List (String × List CargoRequest) :=
  cs.foldl (fun acc c =>
    if acc.any (fun p => p.1 = c.destination) then
      acc.map (fun p => if p.1 = c.destination then (p.1, p.2 ++ [c]) else p)
    else acc ++ [(c.destination, [c])]) []

/-- The first-fit top-up scan of _smart_batch_optimize over self.packed_ulds
(OPEN, same destination and type, segregation, then weight and volume caps). -/
def batchMerge (dest t : String) (maxNetW maxEffV : ℚ) (item : CargoRequest) :
    List PackedULD → Option (List PackedULD)
  | [] => none
  | u :: us =>
    if u.status = "OPEN" ∧ u.destination = dest ∧ u.uld_type = t ∧
        checkMixAll u.shc_codes item ∧
        u.total_weight + item.weight ≤ maxNetW ∧
        u.total_volume + item.volume ≤ maxEffV then
      some (addItem u item :: us)
    else (batchMerge dest t maxNetW maxEffV item us).map (fun us2 => u :: us2)

/-- One destination group of _smart_batch_optimize: top-up merges, then the
MIP bin-packer on the residue, appending OPT-numbered ULDs. -/
def smartBatchGroup (solver : SolverFun) (t : String) (sp : ULDSpec)
    (st : EngineState) (pr : String × List CargoRequest) : EngineState :=
  let maxEffV := sp.max_vol * PACKING_LOSS_FACTOR
  let maxNetW := sp.max_gross - sp.tare
  let merged := pr.2.foldl (fun (acc : EngineState × List CargoRequest) item =>
      match batchMerge pr.1 t maxNetW maxEffV item acc.1.packed_ulds with
      | some ulds => ({ acc.1 with packed_ulds := ulds }, acc.2)
      | none => (acc.1, acc.2 ++ [item])) (st, [])
  if merged.2 ≠ [] then
    (optimize solver merged.2 t).foldl (fun s u =>
      { s with packed_ulds := s.packed_ulds ++
          [{ u with id := "OPT-" ++ pad3 (s.packed_ulds.length + 1) }] }) merged.1
  else merged.1

/-- core_engine.py CorePlanningEngine._smart_batch_optimize. -/
def smartBatchOptimize (solver : SolverFun) (st : EngineState)
    (cs : List CargoRequest) (t : String) : EngineState :=
  match SPECS t with
  | none => st
  | some sp => (groupByDest (reExplode cs)).foldl (smartBatchGroup solver t sp) st

/-- Position lookup across both decks, as in the allocator's reverse check
`AircraftMap.MAIN_POSITIONS.get(p) or AircraftMap.LOWER_POSITIONS.get(p)`. -/
def lookupPos (pid : String) : Option PosInfo :=
  match List.lookup pid MAIN_POSITIONS with
  | some i => some i
  | none => List.lookup pid LOWER_POSITIONS

/-- Conflict list of a position id (empty when unknown). -/
def conflictsOf (pid : String) : List String :=
  match lookupPos pid with
  | some i => i.conflicts
  | none => []

/-- Candidate positions per ULD type in _allocate_to_aircraft. -/
def candidatesFor (t : String) : List (String × PosInfo) :=
  if t = "G" ∨ t = "R" then MAIN_POSITIONS.filter (fun p => p.2.kind = "Center")
  else if t = "M" ∨ t = "A" then
    MAIN_POSITIONS.filter (fun p => p.2.kind = "Left" ∨ p.2.kind = "Right")
  else if t = "M_LOWER" ∨ t = "A_LOWER" then
    LOWER_POSITIONS.filter (fun p => p.2.kind = "Center")
  else if t = "K" then
    LOWER_POSITIONS.filter (fun p => p.2.kind = "Left" ∨ p.2.kind = "Right")
  else []

/-- Candidates sorted by arm ascending (Python stable list.sort). -/
def sortedCandidates (t : String) : List (String × PosInfo) :=
  List.insertionSort (fun a b : String × PosInfo => a.2.arm ≤ b.2.arm)
    (candidatesFor t)

/-- Candidate scan for one ULD: occupancy, forward conflicts, reverse
conflicts, then the linear-load check; first passing candidate wins. -/
def tryAssign (u : PackedULD) (occ : List String) :
    List (String × PosInfo) → Option (String × ℚ)
  | [] => none
  | (pid, info) :: rest =>
    if pid ∈ occ then tryAssign u occ rest
    else if info.conflicts.any (fun c => occ.contains c) then tryAssign u occ rest
    else if occ.any (fun q => (conflictsOf q).contains pid) then tryAssign u occ rest
    else if ¬ check_linear_load u info.arm then tryAssign u occ rest
    else some (pid, info.arm)

/-- Sort key of _allocate_to_aircraft: the Python bool-tuple
`(type not in [G,R], type not in [M_LOWER,A_LOWER], type != K)` read as a
binary number. -/
def uldPriority (u : PackedULD) : ℕ :=
  (if u.uld_type ∉ (["G", "R"] : List String) then 4 else 0) +
  (if u.uld_type ∉ (["M_LOWER", "A_LOWER"] : List String) then 2 else 0) +
  (if u.uld_type ≠ "K" then 1 else 0)

/-- The allocation loop over the priority-sorted, index-tagged ULDs: returns
per original index the assignment (`none` inside means UNASSIGNED); ULDs with
a truthy pre-existing position are skipped, as in the source `continue`. -/
def allocGo : List (ℕ × PackedULD) → List String → List (ℕ × Option (String × ℚ))
  | [], _ => []
  | (i, u) :: rest, occ =>
    if truthyStr u.assigned_position then allocGo rest occ
    else
      match tryAssign u occ (sortedCandidates u.uld_type) with
      | some pa => (i, some pa) :: allocGo rest (pa.1 :: occ)
      | none => (i, none) :: allocGo rest occ

/-- Write-back of one loop assignment to the ULD at the given original index
(the source mutates the aliased object; an index absent from the loop output
was skipped by the `continue`). -/
def applyAsg (asg : List (ℕ × Option (String × ℚ))) (p : ℕ × PackedULD) :
    PackedULD :=
  match List.lookup p.1 asg with
  | some (some pa) =>
    { p.2 with assigned_position := some pa.1, assigned_arm := pa.2 }
  | some none => { p.2 with assigned_position := some "UNASSIGNED" }
  | none => p.2

/-- core_engine.py CorePlanningEngine._allocate_to_aircraft.  The source
mutates the ULD objects through the sorted alias list; here the assignments
are computed in sorted order and written back by original index. -/
def allocateAll (ulds : List PackedULD) : List PackedULD :=
  let indexed := ulds.enum
  let sorted := List.insertionSort
    (fun a b : ℕ × PackedULD => uldPriority a.2 ≤ uldPriority b.2) indexed
  let asg := allocGo sorted []
  indexed.map (applyAsg asg)

/-- One visualization row of _generate_report (`pos` carries the raw
assigned_position; `contents` is abstracted to the item ids, dropping the
per-item weight/destination formatting). -/
structure VisRow where
  pos : Option String
  uld : String
  vtype : String
  weight : ℚ
  arm : ℚ
  dest : String
  contents : List String
deriving DecidableEq, Repr

/-- One serialized action_required entry of _generate_report. -/
structure ActionEntry where
  group_id : String
  message : String
  leftover_count : ℕ
deriving DecidableEq, Repr

/-- The summary block of the report. -/
structure Summary where
  total_ulds : ℕ
  total_weight : ℚ
  warnings : List String
deriving DecidableEq, Repr

/-- The report returned by plan_flight. -/
structure Report where
  summary : Summary
  rejected : List RejEntry
  action_required : List ActionEntry
  visualization : List VisRow
deriving DecidableEq, Repr

/-- core_engine.py CorePlanningEngine._generate_report. -/
def generateReport (st : EngineState) : Report :=
  let warnings := check_zone_limits st.packed_ulds
  let vis := (st.packed_ulds.filter
      (fun u => u.assigned_position ≠ some "UNASSIGNED")).map
    (fun u => ⟨u.assigned_position, u.id, u.uld_type, u.gross_weight,
               u.assigned_arm, u.destination, u.items.map (fun it => it.id)⟩)
  { summary := ⟨st.packed_ulds.length,
                st.packed_ulds.foldl (fun a u => a + u.gross_weight) 0, warnings⟩,
    rejected := st.rejected_cargos,
    action_required := st.action_required.map
      (fun f => ⟨f.group_id, f.message, f.remaining_cargos.length⟩),
    visualization := vis }

/-- Phase-2 lower-deck routing predicate of plan_flight:
`0 < max_height <= 163 or max_height == 0`. -/
def lowerPred (c : CargoRequest) : Bool :=
  decide ((0 < c.max_height ∧ c.max_height ≤ 163) ∨ c.max_height = 0)

/-- Phases 0-2 of plan_flight on a freshly constructed engine: forced groups,
per-cargo admission, and the volumetric top-up; the state just before
allocation. -/
def planPhases012 (solver : SolverFun) (newCargos : List CargoRequest)
    (gs : List ForcedGroup) : EngineState :=
  let exploded := explodeCargos newCargos
  let p0 := phase0 exploded gs ⟨[], [], []⟩
  let remaining := exploded.filter (fun c => c.id ∉ p0.2)
  let p1 := remaining.foldl phase1Step (p0.1, [])
  let lowerVols := p1.2.filter lowerPred
  let mainVols := p1.2.filter (fun c => c ∉ lowerVols)
  let st3 := if lowerVols ≠ [] then smartBatchOptimize solver p1.1 lowerVols "M_LOWER"
             else p1.1
  if mainVols ≠ [] then smartBatchOptimize solver st3 mainVols "M" else st3

/-- core_engine.py CorePlanningEngine.plan_flight, phases 0-3, on a freshly
constructed engine; returns the final engine state. -/
def planFlightState (solver : SolverFun) (newCargos : List CargoRequest)
    (gs : List ForcedGroup) : EngineState :=
  { planPhases012 solver newCargos gs with
    packed_ulds := allocateAll (planPhases012 solver newCargos gs).packed_ulds }

/-- plan_flight including phase 4: the report of the final state. -/
def plan_flight (solver : SolverFun) (newCargos : List CargoRequest)
    (gs : List ForcedGroup) : Report :=
  generateReport (planFlightState solver newCargos gs)

/-! ### Solver contract and checkers used by the claims -/

/-- Total weight of a bin. -/
def sumWeight (b : List CargoRequest) : ℚ := b.foldl (fun a c => a + c.weight) 0

/-- Total volume of a bin. -/
def sumVolume (b : List CargoRequest) : ℚ := b.foldl (fun a c => a + c.volume) 0

/-- The per-bin capacity constraints the MIP wrapper imposes. -/
def binFits (sp : ULDSpec) (b : List CargoRequest) : Prop :=
  sumWeight b ≤ sp.max_gross - sp.tare ∧
  sumVolume b ≤ sp.max_vol * PACKING_LOSS_FACTOR

instance (sp : ULDSpec) (b : List CargoRequest) : Decidable (binFits sp b) := by
  unfold binFits; infer_instance

/-- What the MIP model in math_solver.py guarantees of a returned solution:
the target type has a spec, every cargo lands in exactly one bin, and each
bin respects the weight and volume capacities. -/
def ValidSolution (cs : List CargoRequest) (t : String)
    (bins : List (List CargoRequest)) : Prop :=
  ∃ sp, SPECS t = some sp ∧ bins.flatten.Perm cs ∧ ∀ b ∈ bins, binFits sp b

/-- A solver oracle honouring the MIP contract whenever it reports success. -/
def SolverOk (solver : SolverFun) : Prop :=
  ∀ cs t bins, solver cs t = some bins → ValidSolution cs t bins

/-- The weight invariant claimed of every packed ULD:
`total_weight + tare + shoring_weight ≤ max_gross`. -/
def wInvB (u : PackedULD) : Bool :=
  match SPECS u.uld_type with
  | some sp => decide (u.total_weight + sp.tare + u.shoring_weight ≤ sp.max_gross)
  | none => true

/-- The volume invariant claimed of every packed ULD:
`total_volume ≤ max_vol × 0.85`. -/
def vInvB (u : PackedULD) : Bool :=
  match SPECS u.uld_type with
  | some sp => decide (u.total_volume ≤ sp.max_vol * PACKING_LOSS_FACTOR)
  | none => true

/-- Mutual SHC compatibility of two codes: neither lists the other. -/
def shcCompatB (s1 s2 : String) : Bool :=
  !((CONFLICTS s1).contains s2) && !((CONFLICTS s2).contains s1)

/-- The claimed SHC invariant of a ULD: all pairs drawn from shc_codes are
mutually compatible. -/
def shcPairsB (u : PackedULD) : Bool :=
  u.shc_codes.all (fun s1 => u.shc_codes.all (fun s2 => shcCompatB s1 s2))

/-- Cross-item SHC compatibility: codes of distinct items never conflict. -/
def crossPairsB : List CargoRequest → Bool
  | [] => true
  | c :: rest =>
    rest.all (fun c2 => c.shc.all (fun s1 => c2.shc.all (fun s2 => shcCompatB s1 s2))) &&
    crossPairsB rest

/-- A ULD created by the heuristic packer or the 3D packer (the two packing
paths that perform no volume check). -/
def heuristicBorn (u : PackedULD) : Bool :=
  strLeads "SPL-" u.id || strLeads "FLT-" u.id || strLeads "3D-" u.id

/-- The really-assigned position of a ULD (`none` for unassigned or
UNASSIGNED). -/
def posOK (u : PackedULD) : Option String :=
  match u.assigned_position with
  | some p => if p = "UNASSIGNED" then none else some p
  | none => none

/-- Two ULDs' assigned positions are mutually conflict-free (vacuous unless
both are really assigned). -/
def pairConflictFreeB (u v : PackedULD) : Bool :=
  match posOK u, posOK v with
  | some p, some q => !((conflictsOf p).contains q) && !((conflictsOf q).contains p)
  | _, _ => true

/-- Pairwise conflict freedom of the assigned positions of a ULD list. -/
def conflictFreeB : List PackedULD → Bool
  | [] => true
  | u :: rest => rest.all (fun v => pairConflictFreeB u v) && conflictFreeB rest

/-- Two ULDs' assigned positions differ (vacuous unless both are really
assigned). -/
def pairDistinctB (u v : PackedULD) : Bool :=
  match posOK u, posOK v with
  | some p, some q => p ≠ q
  | _, _ => true

/-- Pairwise distinctness of the assigned positions of a ULD list. -/
def distinctPosB : List PackedULD → Bool
  | [] => true
  | u :: rest => rest.all (fun v => pairDistinctB u v) && distinctPosB rest

/-! ### Concrete inputs and oracles used in counterexamples and witnesses -/

/-- A solver oracle that always reports failure (models a not-optimal /
not-feasible MIP status; the caller then produces no ULDs for the residue). -/
def noneSolver : SolverFun := fun _ _ => none

/-- A conforming solver oracle: one bin per cargo when every cargo fits the
type's capacities individually, failure otherwise. -/
def singSolver : SolverFun := fun cs t =>
  match SPECS t with
  | none => none
  | some sp =>
    if cs.all (fun c => decide (c.weight ≤ sp.max_gross - sp.tare) &&
        decide (c.volume ≤ sp.max_vol * PACKING_LOSS_FACTOR)) then
      some (cs.map (fun c => [c]))
    else none

/-- Scenario-1 cargo of the spec: 500 kg, 2 m3, one piece, LAX, no dims. -/
def cargoStd : CargoRequest := ⟨"C1", "LAX", 500, 2, 1, [], [], none⟩

/-- Scenario-2 cargo of the spec: a 14000 kg floating load. -/
def cargoFloat : CargoRequest := ⟨"F1", "LAX", 14000, 10, 1, [], [], none⟩

/-- A 32000 kg floating load whose gross exceeds every station's linear
limit, so no position is feasible. -/
def cargoHuge : CargoRequest := ⟨"B1", "LAX", 32000, 10, 1, [], [], none⟩

/-- Scenario-3 cargo of the spec: one piece of 400 x 250 x 180 cm. -/
def cargoDims : CargoRequest := ⟨"D1", "LAX", 500, 2, 1, [⟨400, 250, 180⟩], [], none⟩

/-- A special cargo (SHC AVI) of 100 m3, far beyond the M volume cap. -/
def cargoVol : CargoRequest := ⟨"W1", "LAX", 500, 100, 1, [], ["AVI"], none⟩

/-- A single cargo carrying the mutually conflicting codes AVI and RRY. -/
def cargoTwoShc : CargoRequest := ⟨"S1", "LAX", 500, 2, 1, [], ["AVI", "RRY"], none⟩

/-- A cargo of volume 10 m3 (maxBins probe). -/
def cargoTen : CargoRequest := ⟨"T1", "LAX", 600, 10, 1, [], [], none⟩

/-- Scenario-7-like forced group: at most one M pallet. -/
def groupG1 : ForcedGroup := ⟨"G1", ["V"], "M", 1⟩

/-- First cargo of the forced-group scenario. -/
def cargoV1 : CargoRequest := ⟨"V1", "LAX", 5000, 3, 1, [], [], none⟩

/-- Second cargo of the forced-group scenario (overflows the single pallet). -/
def cargoV2 : CargoRequest := ⟨"V2", "LAX", 3000, 3, 1, [], [], none⟩

/-- Modelled from the spec wording of the bin bound (used only to compare with
the source's `maxBins`): `⌈1.2 · Σvol / cap_v⌉ + 2`. -/
def maxBinsCeil (cs : List CargoRequest) (t : String) : ℤ :=
  match SPECS t with
  | none => 2
  | some sp => ⌈1.2 * sumVolume cs / (sp.max_vol * PACKING_LOSS_FACTOR)⌉ + 2

/-- No ULD in the list carries a position assignment. -/
def AllNone (l : List PackedULD) : Prop :=
  ∀ u ∈ l, u.assigned_position = none

/-- The occupied-set invariant of the allocation loop: pairwise distinct and
mutually conflict-free position ids. -/
def GoodOcc (occ : List String) : Prop :=
  occ.Nodup ∧ ∀ p ∈ occ, ∀ q ∈ occ, p ≠ q → q ∉ conflictsOf p

/-- The position ids assigned by the allocation loop's output. -/
def asgPos (out : List (ℕ × Option (String × ℚ))) : List String :=
  out.filterMap (fun e => e.2.map (fun pa => pa.1))

/-- Mutual SHC compatibility as a proposition: neither code lists the other. -/
def shcCompat (s1 s2 : String) : Prop :=
  s2 ∉ CONFLICTS s1 ∧ s1 ∉ CONFLICTS s2

/-- Every code of every item is recorded in the ULD's shc_codes set. -/
def codesCover (u : PackedULD) : Prop :=
  ∀ c ∈ u.items, ∀ s ∈ c.shc, s ∈ u.shc_codes

/-- Cross-item SHC compatibility of an item list: codes of items at distinct
positions never conflict. -/
def crossOK : List CargoRequest → Prop
  | [] => True
  | c :: rest =>
    (∀ c2 ∈ rest, ∀ s1 ∈ c.shc, ∀ s2 ∈ c2.shc, shcCompat s1 s2) ∧ crossOK rest

/-- The per-ULD packing invariant maintained through phases 0-2: the type has
a spec, shoring_weight is never set, the gross-weight bound holds except for a
single-cargo ULD created unchecked by the heuristic or 3D packer, the volume
bound holds except for heuristic/3D ULDs, and the SHC bookkeeping is sound. -/
def UldOK (u : PackedULD) : Prop :=
  ∃ sp, SPECS u.uld_type = some sp ∧
    u.shoring_weight = 0 ∧
    (u.total_weight + sp.tare + u.shoring_weight ≤ sp.max_gross ∨
      (heuristicBorn u = true ∧ ∃ c, u.items = [c] ∧ u.total_weight = c.weight)) ∧
    (u.total_volume ≤ sp.max_vol * PACKING_LOSS_FACTOR ∨ heuristicBorn u = true) ∧
    codesCover u ∧ crossOK u.items

/-- During phases 0-1, every OPEN ULD was created by the heuristic packer
(SPL) or the 3D packer (3D); forced-group and floating ULDs are CLOSED. -/
def OpenPkd (u : PackedULD) : Prop :=
  u.status = "OPEN" → (strLeads "SPL-" u.id = true ∨ strLeads "3D-" u.id = true)

/-- All packed ULDs of the state satisfy the packing invariant. -/
def StOK (st : EngineState) : Prop := ∀ u ∈ st.packed_ulds, UldOK u

/-- The phase-0/1 strengthening of the state invariant. -/
def StOK1 (st : EngineState) : Prop :=
  StOK st ∧ ∀ u ∈ st.packed_ulds, OpenPkd u

/-- Bool form of the C1-amended per-ULD weight property: the gross-weight
bound holds, or the ULD is an unchecked heuristic/3D ULD holding exactly one
cargo whose weight it carries verbatim. -/
def wAmendB (u : PackedULD) : Bool :=
  match SPECS u.uld_type with
  | none => false
  | some sp =>
    decide (u.shoring_weight = 0) &&
    (decide (u.total_weight + sp.tare + u.shoring_weight ≤ sp.max_gross) ||
      (heuristicBorn u &&
        (match u.items with
         | [c] => decide (u.total_weight = c.weight)
         | _ => false)))

/-- Bool form of the C6-amended per-ULD volume property: the packing-loss
volume cap holds, or the ULD came from the heuristic/3D packer whose volume
is unchecked. -/
def vAmendB (u : PackedULD) : Bool :=
  match SPECS u.uld_type with
  | none => false
  | some sp =>
    decide (u.total_volume ≤ sp.max_vol * PACKING_LOSS_FACTOR) || heuristicBorn u

/-- Bool form of cross-item SHC compatibility of a ULD. -/
def itemsCrossB (u : PackedULD) : Bool := crossPairsB u.items

/-- A closed dummy ULD used to name concrete list heads in witnesses. -/
def dummyULD : PackedULD :=
  { id := "", uld_type := "", contour := "", destination := "" }

end B747

namespace B747

/-! ### Claim theorems: counterexamples and directly computable claims -/

/-- C1 counterexample: planning the single 14000 kg floating-load cargo
produces a G ULD with total_weight 14000 and shoring_weight 0, and
14000 + tare(G) = 14500 > 13608 = max_gross(G): the claimed gross-weight
invariant is violated by the packed list. -/
theorem C1_counterexample :
    ((planFlightState noneSolver [cargoFloat] []).packed_ulds.all wInvB) = false ∧
    (planFlightState noneSolver [cargoFloat] []).packed_ulds.map
      (fun u => (u.uld_type, u.total_weight, u.shoring_weight)) = [("G", 14000, 0)] := by
  decide

/-- C6 counterexample: a special cargo (SHC AVI) of volume 100 m3 is packed
by the heuristic packer into a fresh M ULD with total_volume 100, far beyond
max_vol(M) × 0.85 = 16.15: the claimed volume invariant fails. -/
theorem C6_counterexample :
    ((planFlightState noneSolver [cargoVol] []).packed_ulds.all vInvB) = false ∧
    (planFlightState noneSolver [cargoVol] []).packed_ulds.map
      (fun u => (u.uld_type, u.total_volume)) = [("M", 100)] := by
  decide

/-- C7 counterexample: a single cargo carrying both AVI and RRY is packed into
one ULD whose shc_codes contain the pair, although RRY is in the segregation
conflict list of AVI: the claimed pairwise SHC compatibility fails. -/
theorem C7_counterexample :
    ((planFlightState noneSolver [cargoTwoShc] []).packed_ulds.all shcPairsB) = false ∧
    (planFlightState noneSolver [cargoTwoShc] []).packed_ulds.map
      (fun u => u.shc_codes) = [["AVI", "RRY"]] ∧
    "RRY" ∈ CONFLICTS "AVI" := by
  decide

/-- C2 counterexample: the 32000 kg floating load exceeds every station's
linear limit, so its ULD ends UNASSIGNED — yet the report's visualization is
empty (the UNASSIGNED row claimed by the spec is omitted) while total_ulds
still counts the ULD. -/
theorem C2_counterexample :
    (planFlightState noneSolver [cargoHuge] []).packed_ulds.map
      (fun u => u.assigned_position) = [some "UNASSIGNED"] ∧
    (plan_flight noneSolver [cargoHuge] []).visualization = [] ∧
    (plan_flight noneSolver [cargoHuge] []).summary.total_ulds = 1 := by
  decide

/-- C4 counterexample: planning the scenario-1 cargo (500 kg, 2 m3, 1 piece,
LAX, no dims) with a contract-conforming solver yields exactly one ULD — but
of type M_LOWER, not the claimed M (dim-less cargo has max_height 0 and is
routed to the lower-deck batch). -/
theorem C4_counterexample :
    (planFlightState singSolver [cargoStd] []).packed_ulds.map
      (fun u => u.uld_type) = ["M_LOWER"] ∧
    (plan_flight singSolver [cargoStd] []).summary.total_ulds = 1 ∧
    (plan_flight singSolver [cargoStd] []).rejected = [] := by
  decide

/-- C5 counterexample: the 400 × 250 × 180 cm piece passes the door check
(mid = 250 ≤ 305, the Main Side Door), so the cargo is not rejected by the
Gatekeeper; its rejection reason is the 3D packer's "Dims cannot fit M". -/
theorem C5_counterexample :
    (validate_door_entry cargoDims).pass = true ∧
    (plan_flight noneSolver [cargoDims] []).rejected =
      [⟨"D1", "Dims cannot fit M"⟩] := by
  decide

/-- C5 amended: a single cargo with piece dims 400 × 250 × 180 cm (weight 500,
volume 2) passes the Gatekeeper through the Main Side Door and is instead
rejected by the 3D packer because the 400 cm edge exceeds the M pallet floor;
it is packed into no ULD.  This holds for every solver oracle (the solver is
never consulted on this input). -/
theorem C5_amended (solver : SolverFun) :
    (validate_door_entry cargoDims).pass = true ∧
    (validate_door_entry cargoDims).entry_point = "Main-SCD" ∧
    (plan_flight solver [cargoDims] []).rejected = [⟨"D1", "Dims cannot fit M"⟩] ∧
    (planFlightState solver [cargoDims] []).packed_ulds = [] :=
  ⟨by decide, by decide, rfl, rfl⟩

/-- C9 counterexample: for a single cargo of volume 10 m3 and ULD type M the
source computes int((Σvol/cap_v)·1.2) + 2 = 2 candidate bins, while the
claimed ceiling formula gives 3. -/
theorem C9_counterexample :
    maxBins [cargoTen] "M" = 2 ∧ maxBinsCeil [cargoTen] "M" = 3 ∧
    maxBins [cargoTen] "M" ≠ maxBinsCeil [cargoTen] "M" := by
  decide

/-- Every catalogued ULD spec has a positive max_vol. -/
lemma SPECS_max_vol_pos {t : String} {sp : ULDSpec} (h : SPECS t = some sp) :
    0 < sp.max_vol := by
  unfold SPECS at h
  split_ifs at h <;> cases h <;> norm_num

/-- C9 amended: for every cargo list of non-negative total volume handed to
the bin-packer with a catalogued ULD type, the number of candidate bins is
⌊1.2 · Σvol / cap_v⌋ + 2 — the floor, not the claimed ceiling (the source
applies Python `int` to the product). -/
theorem C9_amended (cs : List CargoRequest) (t : String) (sp : ULDSpec)
    (hsp : SPECS t = some sp) (hvol : 0 ≤ sumVolume cs) :
    maxBins cs t = ⌊1.2 * sumVolume cs / (sp.max_vol * PACKING_LOSS_FACTOR)⌋ + 2 := by
  have hv : 0 < sp.max_vol := SPECS_max_vol_pos hsp
  have hplf : (0 : ℚ) < PACKING_LOSS_FACTOR := by norm_num [PACKING_LOSS_FACTOR]
  have hcap : 0 < sp.max_vol * PACKING_LOSS_FACTOR := mul_pos hv hplf
  have hq : 0 ≤ sumVolume cs / (sp.max_vol * PACKING_LOSS_FACTOR) * 1.2 := by
    have h12 : (0 : ℚ) ≤ 1.2 := by norm_num
    exact mul_nonneg (div_nonneg hvol (le_of_lt hcap)) h12
  have hbody : maxBins cs t =
      pyInt (sumVolume cs / (sp.max_vol * PACKING_LOSS_FACTOR) * 1.2) + 2 := by
    simp only [maxBins, hsp, sumVolume]
  rw [hbody]
  simp only [pyInt, if_pos hq]
  congr 1
  congr 1
  ring

/-- C9 amended witness: the floor form evaluates correctly on the concrete
volume-10 cargo with type M. -/
theorem C9_amended_witness :
    0 ≤ sumVolume [cargoTen] ∧
    maxBins [cargoTen] "M" =
      ⌊1.2 * sumVolume [cargoTen] / ((19 : ℚ) * PACKING_LOSS_FACTOR)⌋ + 2 :=
  ⟨by decide,
   C9_amended [cargoTen] "M" ⟨"PMC-Q6", "Q6", 6804, 120, 19, 125, 96⟩ (by decide)
     (by decide)⟩

/-- C2 amended: the report renders a visualization row only for ULDs whose
position differs from "UNASSIGNED"; an allocation failure therefore never
appears as an UNASSIGNED row (it is omitted), while the ULD still counts in
total_ulds.  Holds for every solver oracle and every input. -/
theorem C2_amended (solver : SolverFun) (cs : List CargoRequest)
    (gs : List ForcedGroup) :
    ((plan_flight solver cs gs).visualization.all
      (fun r => r.pos ≠ some "UNASSIGNED")) = true ∧
    (plan_flight solver cs gs).summary.total_ulds =
      (planFlightState solver cs gs).packed_ulds.length := by
  constructor
  · rw [List.all_eq_true]
    intro r hr
    simp only [plan_flight, generateReport, List.mem_map, List.mem_filter] at hr
    obtain ⟨u, ⟨_, hne⟩, rfl⟩ := hr
    simpa using hne
  · rfl

/-- Bins with an empty concatenation contribute nothing to a filterMap that
drops empty bins. -/
lemma filterMap_flatten_nil {α β : Type} (g : List α → Option β)
    (hg : g [] = none) :
    ∀ bins : List (List α), bins.flatten = [] → bins.filterMap g = [] := by
  intro bins
  induction bins with
  | nil => intro _; rfl
  | cons b rest ih =>
    intro h
    rcases List.append_eq_nil.mp h with ⟨hb, hrest⟩
    subst hb
    simp [List.filterMap_cons, hg, ih hrest]

/-- If the bins concatenate to a single element, a filterMap that drops empty
bins sees exactly the one singleton bin. -/
lemma filterMap_flatten_singleton {α β : Type} (g : List α → Option β)
    (hg : g [] = none) (c : α) :
    ∀ bins : List (List α), bins.flatten = [c] →
      bins.filterMap g = (g [c]).toList := by
  intro bins
  induction bins with
  | nil => intro h; cases h
  | cons b rest ih =>
    intro h
    rcases b with _ | ⟨x, xs⟩
    · rw [List.filterMap_cons, hg]
      exact ih (by simpa using h)
    · have hcc : x :: (xs ++ rest.flatten) = [c] := by simpa using h
      have hx : x = c := by injection hcc
      have hnil : xs ++ rest.flatten = [] := by injection hcc
      subst hx
      rcases List.append_eq_nil.mp hnil with ⟨rfl, hrest⟩
      rw [List.filterMap_cons]
      have hrestmap : rest.filterMap g = [] := filterMap_flatten_nil g hg rest hrest
      cases hgc : g [x] <;> simp [hgc, hrestmap, Option.toList]

/-- On a one-cargo input with a successful solver answer whose bins
concatenate to that cargo, optimize produces exactly one TEMP ULD holding it. -/
lemma optimize_singleton (solver : SolverFun) (c : CargoRequest) (t : String)
    (sp : ULDSpec) (hsp : SPECS t = some sp) (bins : List (List CargoRequest))
    (h : solver [c] t = some bins) (hflat : bins.flatten = [c]) :
    optimize solver [c] t =
      [addItem { id := "TEMP", uld_type := t, contour := sp.contour,
                 destination := c.destination } c] := by
  have hne : ([c] : List CargoRequest) ≠ [] := by simp
  simp only [optimize, if_neg hne, hsp, h]
  rw [filterMap_flatten_singleton _ rfl c bins hflat]
  rfl

/-- Definitional shape of planFlightState on the scenario-1 cargo: phases 0-1
leave the state empty with the cargo routed to the lower-deck batch, phase 2
is a single optimize call whose ULDs get OPT ids, phase 3 allocates. -/
lemma planFlightState_cargoStd (solver : SolverFun) :
    planFlightState solver [cargoStd] [] =
      (fun st4 : EngineState =>
        { st4 with packed_ulds := allocateAll st4.packed_ulds })
        ((optimize solver [cargoStd] "M_LOWER").foldl
          (fun (s : EngineState) u =>
            { s with packed_ulds := s.packed_ulds ++
                [{ u with id := "OPT-" ++ pad3 (s.packed_ulds.length + 1) }] })
          ⟨[], [], []⟩) := rfl

/-- C4 amended: planning the scenario-1 cargo (weight 500, volume 2, one
piece, LAX, no dims) yields exactly one packed ULD of type M_LOWER — not M:
the dim-less cargo has max_height 0, so phase 2 routes it to the lower-deck
batch — with total_ulds = 1 and an empty rejected list, for every solver
answer honouring the MIP contract on this call. -/
theorem C4_amended (solver : SolverFun) (bins : List (List CargoRequest))
    (h : solver [cargoStd] "M_LOWER" = some bins)
    (hvalid : ValidSolution [cargoStd] "M_LOWER" bins) :
    (plan_flight solver [cargoStd] []).summary.total_ulds = 1 ∧
    (plan_flight solver [cargoStd] []).rejected = [] ∧
    (planFlightState solver [cargoStd] []).packed_ulds.map
      (fun u => u.uld_type) = ["M_LOWER"] := by
  obtain ⟨sp, hsp, hperm, _⟩ := hvalid
  have hsp0 : SPECS "M_LOWER" = some ⟨"PMC-LD", "LOWER", 5035, 120, 11.5, 125, 96⟩ := by
    decide
  have hspe : sp = ⟨"PMC-LD", "LOWER", 5035, 120, 11.5, 125, 96⟩ := by
    rw [hsp0] at hsp
    exact (Option.some.inj hsp).symm
  subst hspe
  have hflat : bins.flatten = [cargoStd] := List.perm_singleton.mp hperm
  have hopt := optimize_singleton solver cargoStd "M_LOWER" _ hsp0 bins h hflat
  refine ⟨?_, ?_, ?_⟩ <;>
    simp only [plan_flight, planFlightState_cargoStd, hopt] <;> decide

/-- C4 amended witness: the conforming one-bin-per-cargo solver satisfies the
contract on the scenario-1 call and produces the M_LOWER report. -/
theorem C4_amended_witness :
    singSolver [cargoStd] "M_LOWER" = some [[cargoStd]] ∧
    ValidSolution [cargoStd] "M_LOWER" [[cargoStd]] ∧
    (plan_flight singSolver [cargoStd] []).summary.total_ulds = 1 ∧
    (plan_flight singSolver [cargoStd] []).rejected = [] ∧
    (planFlightState singSolver [cargoStd] []).packed_ulds.map
      (fun u => u.uld_type) = ["M_LOWER"] := by
  have hv : ValidSolution [cargoStd] "M_LOWER" [[cargoStd]] :=
    ⟨⟨"PMC-LD", "LOWER", 5035, 120, 11.5, 125, 96⟩, by decide, by decide, by decide⟩
  have h := C4_amended singSolver [[cargoStd]] (by decide) hv
  exact ⟨by decide, hv, h.1, h.2.1, h.2.2⟩

/-- Successful first-fit placement: the ULD list splits at the first ULD
passing the capacity and segregation checks, which receives the cargo. -/
lemma tryPlaceGroup_spec (maxNet effVol : ℚ) (c : CargoRequest) :
    ∀ ulds ulds2, tryPlaceGroup maxNet effVol c ulds = some ulds2 →
      ∃ pre u post, ulds = pre ++ u :: post ∧
        ulds2 = pre ++ addItem u c :: post ∧
        u.total_weight + c.weight ≤ maxNet ∧
        u.total_volume + c.volume ≤ effVol ∧
        checkMixAll u.shc_codes c = true := by
  intro ulds
  induction ulds with
  | nil => intro ulds2 h; cases h
  | cons u us ih =>
    intro ulds2 h
    by_cases hcond : u.total_weight + c.weight ≤ maxNet ∧
        u.total_volume + c.volume ≤ effVol ∧ checkMixAll u.shc_codes c = true
    · rw [tryPlaceGroup, if_pos hcond] at h
      exact ⟨[], u, us, rfl, (Option.some.inj h).symm ▸ rfl,
        hcond.1, hcond.2.1, hcond.2.2⟩
    · rw [tryPlaceGroup, if_neg hcond] at h
      rcases Option.map_eq_some'.mp h with ⟨us2, hus2, rfl⟩
      obtain ⟨pre, v, post, h1, h2, h3, h4, h5⟩ := ih us2 hus2
      exact ⟨u :: pre, v, post, by rw [h1]; rfl, by rw [h2]; rfl, h3, h4, h5⟩

/-- First-fit placement preserves the number of group ULDs. -/
lemma tryPlaceGroup_length (maxNet effVol : ℚ) (c : CargoRequest)
    (ulds ulds2 : List PackedULD)
    (h : tryPlaceGroup maxNet effVol c ulds = some ulds2) :
    ulds2.length = ulds.length := by
  obtain ⟨pre, u, post, h1, h2, -⟩ := tryPlaceGroup_spec maxNet effVol c ulds ulds2 h
  subst h1; subst h2; simp

/-- Successful placement moves the cargo into the concatenated item lists. -/
lemma tryPlaceGroup_perm (maxNet effVol : ℚ) (c : CargoRequest)
    (ulds ulds2 : List PackedULD)
    (h : tryPlaceGroup maxNet effVol c ulds = some ulds2) :
    (ulds2.map (fun u => u.items)).flatten.Perm
      (c :: (ulds.map (fun u => u.items)).flatten) := by
  obtain ⟨pre, u, post, h1, h2, -⟩ := tryPlaceGroup_spec maxNet effVol c ulds ulds2 h
  subst h1; subst h2
  have base := @List.perm_middle _ c
    ((pre.map (fun u => u.items)).flatten ++ u.items)
    ((post.map (fun u => u.items)).flatten)
  simpa [addItem, List.append_assoc] using base

/-- The first-fit loop preserves the number of group ULDs. -/
lemma forcedFit_length (maxNet effVol : ℚ) :
    ∀ cs ulds, (forcedFit maxNet effVol ulds cs).1.length = ulds.length := by
  intro cs
  induction cs with
  | nil => intro ulds; rfl
  | cons c cs ih =>
    intro ulds
    rw [forcedFit]
    cases h : tryPlaceGroup maxNet effVol c ulds with
    | none => simpa using ih ulds
    | some ulds2 => simpa [ih ulds2] using tryPlaceGroup_length maxNet effVol c ulds ulds2 h

/-- Conservation through the first-fit loop: the items placed into the group
ULDs plus the leftovers are a permutation of the initial items plus the
input cargos. -/
lemma forcedFit_perm (maxNet effVol : ℚ) :
    ∀ cs ulds,
      (((forcedFit maxNet effVol ulds cs).1.map (fun u => u.items)).flatten ++
        (forcedFit maxNet effVol ulds cs).2).Perm
      ((ulds.map (fun u => u.items)).flatten ++ cs) := by
  intro cs
  induction cs with
  | nil => intro ulds; simp [forcedFit]
  | cons c cs ih =>
    intro ulds
    rw [forcedFit]
    cases h : tryPlaceGroup maxNet effVol c ulds with
    | some ulds2 =>
      have h1 := ih ulds2
      have h2 := (tryPlaceGroup_perm maxNet effVol c ulds ulds2 h).append_right cs
      have h3 : (c :: ((ulds.map (fun u => u.items)).flatten ++ cs)).Perm
          ((ulds.map (fun u => u.items)).flatten ++ c :: cs) :=
        List.perm_middle.symm
      exact (h1.trans h2).trans h3
    | none =>
      have h1 := ih ulds
      have ha : (((forcedFit maxNet effVol ulds cs).1.map (fun u => u.items)).flatten ++
          (c :: (forcedFit maxNet effVol ulds cs).2)).Perm
          (c :: (((forcedFit maxNet effVol ulds cs).1.map (fun u => u.items)).flatten ++
            (forcedFit maxNet effVol ulds cs).2)) := List.perm_middle
      have hc : (c :: ((ulds.map (fun u => u.items)).flatten ++ cs)).Perm
          ((ulds.map (fun u => u.items)).flatten ++ c :: cs) :=
        List.perm_middle.symm
      exact ha.trans ((h1.cons c).trans hc)

/-- Dropping empty-itemed ULDs does not change the concatenated items. -/
lemma flatten_items_filter (l : List PackedULD) :
    (((l.filter (fun u => u.items ≠ [])).map (fun u => u.items)).flatten) =
      ((l.map (fun u => u.items)).flatten) := by
  induction l with
  | nil => rfl
  | cons u us ih =>
    by_cases h : u.items = []
    · rw [List.filter_cons, if_neg (by simp [h]), ih]
      simp [h]
    · rw [List.filter_cons, if_pos (by simp [h])]
      simp only [List.map_cons, List.flatten_cons, ih]

/-- Unfolding of _pack_forced_group on a non-empty cargo list whose target
type has a spec. -/
lemma packForcedGroup_eq (st : EngineState) (g : ForcedGroup) (c0 : CargoRequest)
    (cs' : List CargoRequest) (sp : ULDSpec)
    (hsp : SPECS g.target_uld_type = some sp) :
    packForcedGroup st g (c0 :: cs') =
      (let r := forcedFit (sp.max_gross - sp.tare) (sp.max_vol * PACKING_LOSS_FACTOR)
          ((List.range g.max_uld_count).map (mkGroupULD g sp c0.destination))
          (List.insertionSort wvDesc (c0 :: cs'))
       let newUlds := (r.1.filter (fun u => u.items ≠ [])).map
          (fun u => { u with status := "CLOSED", is_pure := true })
       if r.2 ≠ [] then
         { packed_ulds := st.packed_ulds ++ newUlds,
           rejected_cargos := st.rejected_cargos,
           action_required := st.action_required ++
             [⟨g.group_id, "Group " ++ g.group_id ++ " overflow: " ++
               toString r.2.length ++ " pcs.", r.2⟩] }
       else
         { packed_ulds := st.packed_ulds ++ newUlds,
           rejected_cargos := st.rejected_cargos,
           action_required := st.action_required }) := by
  simp only [packForcedGroup, hsp]

/-- C8: for every forced group over a non-empty, duplicate-free cargo list
whose target ULD type has a spec, _pack_forced_group appends at most
max_uld_count new ULDs, every appended ULD is non-empty, CLOSED and pure, the
placed items plus the leftovers are exactly the group cargos, no leftover sits
in any ULD, nothing is rejected, and the leftovers surface as one
action_required feedback entry whose reported leftover_count is their number
(no entry when nothing is left over). -/
theorem C8_forced_overflow (st : EngineState) (g : ForcedGroup)
    (cs : List CargoRequest) (sp : ULDSpec)
    (hsp : SPECS g.target_uld_type = some sp) (hne : cs ≠ [])
    (hnd : cs.Nodup) :
    ∃ newUlds leftovers,
      (packForcedGroup st g cs).packed_ulds = st.packed_ulds ++ newUlds ∧
      (packForcedGroup st g cs).rejected_cargos = st.rejected_cargos ∧
      newUlds.length ≤ g.max_uld_count ∧
      (∀ u ∈ newUlds, u.items ≠ [] ∧ u.status = "CLOSED" ∧ u.is_pure = true) ∧
      ((newUlds.map (fun u => u.items)).flatten ++ leftovers).Perm cs ∧
      (∀ c ∈ leftovers, ∀ u ∈ newUlds, c ∉ u.items) ∧
      (packForcedGroup st g cs).action_required =
        st.action_required ++
          (if leftovers = [] then []
           else [⟨g.group_id, "Group " ++ g.group_id ++ " overflow: " ++
             toString leftovers.length ++ " pcs.", leftovers⟩]) ∧
      (generateReport (packForcedGroup st g cs)).action_required =
        st.action_required.map
          (fun f => ⟨f.group_id, f.message, f.remaining_cargos.length⟩) ++
          (if leftovers = [] then []
           else [⟨g.group_id, "Group " ++ g.group_id ++ " overflow: " ++
             toString leftovers.length ++ " pcs.", leftovers.length⟩]) := by
  rcases cs with _ | ⟨c0, cs'⟩
  · exact absurd rfl hne
  rw [packForcedGroup_eq st g c0 cs' sp hsp]
  set gUlds := (List.range g.max_uld_count).map (mkGroupULD g sp c0.destination)
    with hgu
  set r := forcedFit (sp.max_gross - sp.tare) (sp.max_vol * PACKING_LOSS_FACTOR)
    gUlds (List.insertionSort wvDesc (c0 :: cs')) with hrdef
  set newUlds := (r.1.filter (fun u => u.items ≠ [])).map
    (fun u => { u with status := "CLOSED", is_pure := true }) with hnewdef
  refine ⟨newUlds, r.2, ?_, ?_, ?_, ?_, ?_, ?_, ?_, ?_⟩
  · rcases eq_or_ne r.2 [] with hl | hl
    · rw [if_neg (not_not_intro hl)]
    · rw [if_pos hl]
  · rcases eq_or_ne r.2 [] with hl | hl
    · rw [if_neg (not_not_intro hl)]
    · rw [if_pos hl]
  · have h1 : newUlds.length ≤ r.1.length := by
      rw [hnewdef, List.length_map]
      exact List.length_filter_le _ _
    have h2 : r.1.length = gUlds.length := by
      rw [hrdef]
      exact forcedFit_length _ _ _ _
    have h3 : gUlds.length = g.max_uld_count := by simp [hgu]
    omega
  · intro u hu
    rcases List.mem_map.mp hu with ⟨v, hv, rfl⟩
    exact ⟨by simpa using (List.mem_filter.mp hv).2, rfl, rfl⟩
  · have hmapeq : newUlds.map (fun u => u.items) =
        (r.1.filter (fun u => u.items ≠ [])).map (fun u => u.items) := by
      rw [hnewdef, List.map_map]
      rfl
    have hflt : (newUlds.map (fun u => u.items)).flatten =
        (r.1.map (fun u => u.items)).flatten := by
      rw [hmapeq, flatten_items_filter]
    have hinit : (gUlds.map (fun u => u.items)).flatten = [] := by
      rw [List.flatten_eq_nil_iff]
      intro l hl
      rcases List.mem_map.mp hl with ⟨v, hv, rfl⟩
      rcases List.mem_map.mp hv with ⟨i, _, rfl⟩
      rfl
    have hperm := forcedFit_perm (sp.max_gross - sp.tare)
      (sp.max_vol * PACKING_LOSS_FACTOR) (List.insertionSort wvDesc (c0 :: cs')) gUlds
    rw [hinit] at hperm
    simp only [List.nil_append] at hperm
    rw [hflt]
    exact (hperm.trans (List.perm_insertionSort wvDesc (c0 :: cs')))
  · intro c hc u hu hmem
    have hperm : ((newUlds.map (fun u => u.items)).flatten ++ r.2).Perm (c0 :: cs') := by
      have hmapeq : newUlds.map (fun u => u.items) =
          (r.1.filter (fun u => u.items ≠ [])).map (fun u => u.items) := by
        rw [hnewdef, List.map_map]
        rfl
      have hinit : (gUlds.map (fun u => u.items)).flatten = [] := by
        rw [List.flatten_eq_nil_iff]
        intro l hl
        rcases List.mem_map.mp hl with ⟨v, hv, rfl⟩
        rcases List.mem_map.mp hv with ⟨i, _, rfl⟩
        rfl
      have hp := forcedFit_perm (sp.max_gross - sp.tare)
        (sp.max_vol * PACKING_LOSS_FACTOR) (List.insertionSort wvDesc (c0 :: cs')) gUlds
      rw [hinit] at hp
      simp only [List.nil_append] at hp
      rw [hmapeq, flatten_items_filter]
      exact hp.trans (List.perm_insertionSort wvDesc (c0 :: cs'))
    have hmem1 : c ∈ (newUlds.map (fun u => u.items)).flatten :=
      List.mem_flatten.mpr ⟨u.items, List.mem_map.mpr ⟨u, hu, rfl⟩, hmem⟩
    have hcount : 2 ≤ ((newUlds.map (fun u => u.items)).flatten ++ r.2).count c := by
      rw [List.count_append]
      have h1 : 1 ≤ ((newUlds.map (fun u => u.items)).flatten).count c :=
        List.count_pos_iff_mem.mpr hmem1
      have h2 : 1 ≤ r.2.count c := List.count_pos_iff_mem.mpr hc
      omega
    rw [hperm.count_eq] at hcount
    have hle := List.nodup_iff_count_le_one.mp hnd c
    omega
  · rcases eq_or_ne r.2 [] with hl | hl
    · rw [if_neg (not_not_intro hl), if_pos hl]
      simp
    · rw [if_pos hl, if_neg hl]
  · rcases eq_or_ne r.2 [] with hl | hl
    · rw [if_neg (not_not_intro hl), if_pos hl]
      simp [generateReport]
    · rw [if_pos hl, if_neg hl]
      simp [generateReport]

/-- First-fit heuristic merge: the ULD list splits at the first OPEN ULD of
matching type and destination that passes segregation and the gross-weight
cap, and that ULD receives the cargo. -/
lemma heurMerge_spec (c : CargoRequest) (target : String) (maxGross : ℚ) :
    ∀ ulds ulds2, heurMerge c target maxGross ulds = some ulds2 →
      ∃ pre u post, ulds = pre ++ u :: post ∧
        ulds2 = pre ++ addItem u c :: post ∧
        u.uld_type = target ∧ u.status = "OPEN" ∧
        u.destination = c.destination ∧ checkMixAll u.shc_codes c = true ∧
        u.gross_weight + c.weight ≤ maxGross := by
  intro ulds
  induction ulds with
  | nil => intro ulds2 h; cases h
  | cons u us ih =>
    intro ulds2 h
    by_cases hcond : u.uld_type = target ∧ u.status = "OPEN" ∧
        u.destination = c.destination ∧ checkMixAll u.shc_codes c = true ∧
        u.gross_weight + c.weight ≤ maxGross
    · rw [heurMerge, if_pos hcond] at h
      exact ⟨[], u, us, rfl, (Option.some.inj h).symm ▸ rfl, hcond.1, hcond.2.1,
        hcond.2.2.1, hcond.2.2.2.1, hcond.2.2.2.2⟩
    · rw [heurMerge, if_neg hcond] at h
      rcases Option.map_eq_some'.mp h with ⟨us2, hus2, rfl⟩
      obtain ⟨pre, v, post, h1, h2, h3, h4, h5, h6, h7⟩ := ih us2 hus2
      exact ⟨u :: pre, v, post, by rw [h1]; rfl, by rw [h2]; rfl, h3, h4, h5, h6, h7⟩

/-- First-fit phase-2 merge: the ULD list splits at the first OPEN ULD of
matching destination and type passing segregation and both caps, and that ULD
receives the item. -/
lemma batchMerge_spec (dest t : String) (maxNetW maxEffV : ℚ) (item : CargoRequest) :
    ∀ ulds ulds2, batchMerge dest t maxNetW maxEffV item ulds = some ulds2 →
      ∃ pre u post, ulds = pre ++ u :: post ∧
        ulds2 = pre ++ addItem u item :: post ∧
        u.status = "OPEN" ∧ u.destination = dest ∧ u.uld_type = t ∧
        checkMixAll u.shc_codes item = true ∧
        u.total_weight + item.weight ≤ maxNetW ∧
        u.total_volume + item.volume ≤ maxEffV := by
  intro ulds
  induction ulds with
  | nil => intro ulds2 h; cases h
  | cons u us ih =>
    intro ulds2 h
    by_cases hcond : u.status = "OPEN" ∧ u.destination = dest ∧ u.uld_type = t ∧
        checkMixAll u.shc_codes item = true ∧
        u.total_weight + item.weight ≤ maxNetW ∧
        u.total_volume + item.volume ≤ maxEffV
    · rw [batchMerge, if_pos hcond] at h
      exact ⟨[], u, us, rfl, (Option.some.inj h).symm ▸ rfl, hcond.1, hcond.2.1,
        hcond.2.2.1, hcond.2.2.2.1, hcond.2.2.2.2.1, hcond.2.2.2.2.2⟩
    · rw [batchMerge, if_neg hcond] at h
      rcases Option.map_eq_some'.mp h with ⟨us2, hus2, rfl⟩
      obtain ⟨pre, v, post, h1, h2, h3, h4, h5, h6, h7, h8⟩ := ih us2 hus2
      exact ⟨u :: pre, v, post, by rw [h1]; rfl, by rw [h2]; rfl, h3, h4, h5, h6,
        h7, h8⟩

/-- Folding items into a ULD never touches its position assignment. -/
lemma foldl_addItem_assigned (b : List CargoRequest) :
    ∀ u : PackedULD, (b.foldl addItem u).assigned_position = u.assigned_position := by
  induction b with
  | nil => intro u; rfl
  | cons c cs ih => intro u; rw [List.foldl_cons, ih]; rfl

/-! ### Before phase 3, no ULD carries a position assignment -/

lemma AllNone_append {l1 l2 : List PackedULD} (h1 : AllNone l1) (h2 : AllNone l2) :
    AllNone (l1 ++ l2) := by
  intro u hu
  rcases List.mem_append.mp hu with h | h
  exacts [h1 u h, h2 u h]

lemma tryPlaceGroup_allNone {mn ev : ℚ} {c : CargoRequest}
    {ulds ulds2 : List PackedULD} (h : tryPlaceGroup mn ev c ulds = some ulds2)
    (ha : AllNone ulds) : AllNone ulds2 := by
  obtain ⟨pre, u, post, h1, h2, -⟩ := tryPlaceGroup_spec mn ev c ulds ulds2 h
  subst h1; subst h2
  intro v hv
  rcases List.mem_append.mp hv with h | h
  · exact ha v (List.mem_append.mpr (Or.inl h))
  · rcases List.mem_cons.mp h with rfl | h
    · show (addItem u c).assigned_position = none
      have : u.assigned_position = none := ha u (by simp)
      simpa [addItem] using this
    · exact ha v (by simp [h])

lemma forcedFit_allNone (mn ev : ℚ) :
    ∀ (cs : List CargoRequest) (ulds : List PackedULD), AllNone ulds →
      AllNone (forcedFit mn ev ulds cs).1 := by
  intro cs
  induction cs with
  | nil => intro ulds ha; exact ha
  | cons c cs ih =>
    intro ulds ha
    rw [forcedFit]
    cases h : tryPlaceGroup mn ev c ulds with
    | some ulds2 => exact ih ulds2 (tryPlaceGroup_allNone h ha)
    | none => exact ih ulds ha

lemma packForcedGroup_allNone (st : EngineState) (g : ForcedGroup)
    (cs : List CargoRequest) (ha : AllNone st.packed_ulds) :
    AllNone (packForcedGroup st g cs).packed_ulds := by
  cases hsp : SPECS g.target_uld_type with
  | none =>
    simp only [packForcedGroup, hsp]
    exact ha
  | some sp =>
    cases cs with
    | nil => simp only [packForcedGroup, hsp]; exact ha
    | cons c0 cs' =>
      rw [packForcedGroup_eq st g c0 cs' sp hsp]
      have hgu : AllNone ((List.range g.max_uld_count).map
          (mkGroupULD g sp c0.destination)) := by
        intro u hu
        rcases List.mem_map.mp hu with ⟨i, _, rfl⟩
        rfl
      have hfit := forcedFit_allNone (sp.max_gross - sp.tare)
        (sp.max_vol * PACKING_LOSS_FACTOR)
        (List.insertionSort wvDesc (c0 :: cs'))
        ((List.range g.max_uld_count).map (mkGroupULD g sp c0.destination)) hgu
      have hnew : AllNone (((forcedFit (sp.max_gross - sp.tare)
          (sp.max_vol * PACKING_LOSS_FACTOR)
          ((List.range g.max_uld_count).map (mkGroupULD g sp c0.destination))
          (List.insertionSort wvDesc (c0 :: cs'))).1.filter
            (fun u => u.items ≠ [])).map
          (fun u => { u with status := "CLOSED", is_pure := true })) := by
        intro u hu
        rcases List.mem_map.mp hu with ⟨v, hv, rfl⟩
        exact hfit v (List.mem_filter.mp hv).1
      rcases eq_or_ne (forcedFit (sp.max_gross - sp.tare)
          (sp.max_vol * PACKING_LOSS_FACTOR)
          ((List.range g.max_uld_count).map (mkGroupULD g sp c0.destination))
          (List.insertionSort wvDesc (c0 :: cs'))).2 [] with hl | hl
      · rw [if_neg (not_not_intro hl)]
        exact AllNone_append ha hnew
      · rw [if_pos hl]
        exact AllNone_append ha hnew

lemma pack3DLoop_allNone (sp : ULDSpec) (cargo : CargoRequest) (t : String)
    (perW perV : ℚ) (maxPcs : ℕ) :
    ∀ (fuel : ℕ) (st : EngineState) (pcs : ℕ), AllNone st.packed_ulds →
      AllNone (pack3DLoop sp cargo t perW perV maxPcs fuel st pcs).packed_ulds := by
  intro fuel
  induction fuel with
  | zero => intro st pcs ha; exact ha
  | succ fuel ih =>
    intro st pcs ha
    cases pcs with
    | zero => exact ha
    | succ pcs =>
      rw [pack3DLoop]
      by_cases hbw : pyFloorDiv (sp.max_gross - sp.tare) perW ≤ 0
      · rw [if_pos hbw]
        exact ha
      · rw [if_neg hbw]
        by_cases hz : min (pcs + 1)
            (min maxPcs (pyFloorDiv (sp.max_gross - sp.tare) perW).toNat) = 0
        · rw [if_pos hz]
          exact ha
        · rw [if_neg hz]
          apply ih
          apply AllNone_append ha
          intro u hu
          rw [List.mem_singleton.mp hu]
          rfl

lemma pack3DCargo_allNone (st : EngineState) (cargo : CargoRequest) (t : String)
    (ha : AllNone st.packed_ulds) : AllNone (pack3DCargo st cargo t).packed_ulds := by
  simp only [pack3DCargo]
  split
  · exact ha
  · split
    · exact ha
    · split
      · exact ha
      · exact pack3DLoop_allNone _ _ _ _ _ _ _ st cargo.pieces ha

lemma heuristicPack_allNone (st : EngineState) (cargo : CargoRequest)
    (isFloating : Bool) (ha : AllNone st.packed_ulds) :
    AllNone (heuristicPack st cargo isFloating).packed_ulds := by
  simp only [heuristicPack]
  split
  · exact ha
  · next sp hsp =>
    split
    · next ulds hm =>
      have hm2 : heurMerge cargo (match cargo.assigned_uld_type with
          | some t => if t = "" then (recommend_type cargo).rtype else t
          | none => (recommend_type cargo).rtype) sp.max_gross
          st.packed_ulds = some ulds := by
        cases isFloating with
        | true => simp at hm
        | false => simpa using hm
      obtain ⟨pre, u, post, h1, h2, -⟩ := heurMerge_spec cargo _ sp.max_gross
        st.packed_ulds ulds hm2
      intro v hv
      rw [h2] at hv
      rcases List.mem_append.mp hv with h | h
      · exact ha v (by rw [h1]; exact List.mem_append.mpr (Or.inl h))
      · rcases List.mem_cons.mp h with rfl | h
        · show (addItem u cargo).assigned_position = none
          have : u.assigned_position = none := ha u (by rw [h1]; simp)
          simpa [addItem] using this
        · exact ha v (by rw [h1]; simp [h])
    · apply AllNone_append ha
      intro v hv
      rw [List.mem_singleton.mp hv]
      cases isFloating <;> rfl

lemma phase1Step_allNone (acc : EngineState × List CargoRequest) (c : CargoRequest)
    (ha : AllNone acc.1.packed_ulds) : AllNone (phase1Step acc c).1.packed_ulds := by
  simp only [phase1Step]
  repeat' split
  all_goals first
    | exact ha
    | exact heuristicPack_allNone _ _ _ ha
    | exact pack3DCargo_allNone _ _ _ ha

lemma optimize_allNone (solver : SolverFun) (cs : List CargoRequest) (t : String) :
    AllNone (optimize solver cs t) := by
  intro u hu
  simp only [optimize] at hu
  split at hu
  · cases hu
  · split at hu
    · rcases List.mem_filterMap.mp hu with ⟨b, _, hgb⟩
      cases b with
      | nil => cases hgb
      | cons c0 b' =>
        have : (c0 :: b').foldl addItem
            { id := "TEMP", uld_type := t,
              contour := _, destination := c0.destination } = u :=
          Option.some.inj hgb
        rw [← this, foldl_addItem_assigned]
    · cases hu

lemma batchMerge_allNone {dest t : String} {mw mv : ℚ} {item : CargoRequest}
    {ulds ulds2 : List PackedULD}
    (h : batchMerge dest t mw mv item ulds = some ulds2)
    (ha : AllNone ulds) : AllNone ulds2 := by
  obtain ⟨pre, u, post, h1, h2, -⟩ := batchMerge_spec dest t mw mv item ulds ulds2 h
  subst h1; subst h2
  intro v hv
  rcases List.mem_append.mp hv with h | h
  · exact ha v (List.mem_append.mpr (Or.inl h))
  · rcases List.mem_cons.mp h with rfl | h
    · show (addItem u item).assigned_position = none
      have : u.assigned_position = none := ha u (by simp)
      simpa [addItem] using this
    · exact ha v (by simp [h])

lemma smartBatchGroup_allNone (solver : SolverFun) (t : String) (sp : ULDSpec)
    (st : EngineState) (pr : String × List CargoRequest)
    (ha : AllNone st.packed_ulds) :
    AllNone (smartBatchGroup solver t sp st pr).packed_ulds := by
  simp only [smartBatchGroup]
  have hm : ∀ (items : List CargoRequest) (acc : EngineState × List CargoRequest),
      AllNone acc.1.packed_ulds →
      AllNone (items.foldl (fun acc item =>
        match batchMerge pr.1 t (sp.max_gross - sp.tare)
            (sp.max_vol * PACKING_LOSS_FACTOR) item acc.1.packed_ulds with
        | some ulds => ({ acc.1 with packed_ulds := ulds }, acc.2)
        | none => (acc.1, acc.2 ++ [item])) acc).1.packed_ulds := by
    intro items
    induction items with
    | nil => intro acc h; exact h
    | cons i rest ih =>
      intro acc h
      rw [List.foldl_cons]
      dsimp only
      cases hb : batchMerge pr.1 t (sp.max_gross - sp.tare)
          (sp.max_vol * PACKING_LOSS_FACTOR) i acc.1.packed_ulds with
      | some ulds =>
        simp only [hb]
        exact ih _ (batchMerge_allNone hb h)
      | none =>
        simp only [hb]
        exact ih _ h
  split
  · have hopt : ∀ (res : List PackedULD) (s : EngineState), AllNone res →
        AllNone s.packed_ulds →
        AllNone ((res.foldl (fun s u =>
          { s with packed_ulds := s.packed_ulds ++
            [{ u with id := "OPT-" ++ pad3 (s.packed_ulds.length + 1) }] }) s).packed_ulds) := by
      intro res
      induction res with
      | nil => intro s _ hs; exact hs
      | cons u rest ih =>
        intro s hres hs
        rw [List.foldl_cons]
        apply ih _ (fun v hv => hres v (by simp [hv]))
        apply AllNone_append hs
        intro v hv
        rw [List.mem_singleton.mp hv]
        exact hres u (by simp)
    exact hopt _ _ (optimize_allNone solver _ t) (hm pr.2 (st, []) ha)
  · exact hm pr.2 (st, []) ha

lemma smartBatchOptimize_allNone (solver : SolverFun) (st : EngineState)
    (cs : List CargoRequest) (t : String) (ha : AllNone st.packed_ulds) :
    AllNone (smartBatchOptimize solver st cs t).packed_ulds := by
  simp only [smartBatchOptimize]
  split
  · exact ha
  · next sp _ =>
    have : ∀ (grps : List (String × List CargoRequest)) (s : EngineState),
        AllNone s.packed_ulds →
        AllNone ((grps.foldl (smartBatchGroup solver t sp) s).packed_ulds) := by
      intro grps
      induction grps with
      | nil => intro s hs; exact hs
      | cons g rest ih =>
        intro s hs
        rw [List.foldl_cons]
        exact ih _ (smartBatchGroup_allNone solver t sp s g hs)
    exact this _ st ha

lemma phase0_allNone (exploded : List CargoRequest) (gs : List ForcedGroup)
    (st : EngineState) (ha : AllNone st.packed_ulds) :
    AllNone (phase0 exploded gs st).1.packed_ulds := by
  simp only [phase0]
  have : ∀ (groups : List ForcedGroup) (acc : EngineState × List String),
      AllNone acc.1.packed_ulds →
      AllNone ((groups.foldl (fun acc g =>
        let matched := exploded.filter (matchesGroup g)
        if matched ≠ [] then
          (packForcedGroup acc.1 g matched, acc.2 ++ matched.map (fun c => c.id))
        else acc) acc).1.packed_ulds) := by
    intro groups
    induction groups with
    | nil => intro acc h; exact h
    | cons g rest ih =>
      intro acc h
      rw [List.foldl_cons]
      by_cases hmch : exploded.filter (matchesGroup g) ≠ []
      · simp only [if_pos hmch]
        exact ih _ (packForcedGroup_allNone acc.1 g _ h)
      · simp only [if_neg hmch]
        exact ih _ h
  exact this gs (st, []) ha

/-- Before allocation, every packed ULD is position-unassigned. -/
lemma planPhases012_allNone (solver : SolverFun) (cs : List CargoRequest)
    (gs : List ForcedGroup) :
    AllNone (planPhases012 solver cs gs).packed_ulds := by
  simp only [planPhases012]
  have h0 : AllNone (phase0 (explodeCargos cs) gs ⟨[], [], []⟩).1.packed_ulds :=
    phase0_allNone _ _ _ (by intro u hu; cases hu)
  have h1 : ∀ (rem : List CargoRequest) (acc : EngineState × List CargoRequest),
      AllNone acc.1.packed_ulds →
      AllNone ((rem.foldl phase1Step acc).1.packed_ulds) := by
    intro rem
    induction rem with
    | nil => intro acc h; exact h
    | cons c rest ih =>
      intro acc h
      rw [List.foldl_cons]
      exact ih _ (phase1Step_allNone acc c h)
  have h2 := h1 ((explodeCargos cs).filter
    (fun c => c.id ∉ (phase0 (explodeCargos cs) gs ⟨[], [], []⟩).2))
    ((phase0 (explodeCargos cs) gs ⟨[], [], []⟩).1, []) h0
  split
  · split
    · exact smartBatchOptimize_allNone _ _ _ _
        (smartBatchOptimize_allNone _ _ _ _ h2)
    · exact smartBatchOptimize_allNone _ _ _ _ h2
  · split
    · exact smartBatchOptimize_allNone _ _ _ _ h2
    · exact h2

/-! ### Allocator correctness: conflict freedom and position uniqueness -/

/-- Every entry of either position map is found by the two-stage lookup used
by the allocator's reverse check (keys are unique across both maps). -/
lemma mapsConsistent :
    ((MAIN_POSITIONS ++ LOWER_POSITIONS).all
      (fun pr => lookupPos pr.1 == some pr.2)) = true := by decide

lemma lookupPos_of_mem {pid : String} {info : PosInfo}
    (h : (pid, info) ∈ MAIN_POSITIONS ∨ (pid, info) ∈ LOWER_POSITIONS) :
    lookupPos pid = some info := by
  have hall := mapsConsistent
  rw [List.all_eq_true] at hall
  have := hall (pid, info) (List.mem_append.mpr h)
  simpa using this

lemma mem_sortedCandidates {t pid : String} {info : PosInfo}
    (h : (pid, info) ∈ sortedCandidates t) :
    (pid, info) ∈ MAIN_POSITIONS ∨ (pid, info) ∈ LOWER_POSITIONS := by
  have h1 : (pid, info) ∈ candidatesFor t :=
    (List.perm_insertionSort _ _).mem_iff.mp h
  unfold candidatesFor at h1
  split_ifs at h1
  · exact Or.inl (List.mem_filter.mp h1).1
  · exact Or.inl (List.mem_filter.mp h1).1
  · exact Or.inr (List.mem_filter.mp h1).1
  · exact Or.inr (List.mem_filter.mp h1).1
  · cases h1

lemma conflictsOf_candidate {t pid : String} {info : PosInfo}
    (h : (pid, info) ∈ sortedCandidates t) :
    conflictsOf pid = info.conflicts := by
  rw [conflictsOf, lookupPos_of_mem (mem_sortedCandidates h)]

/-- A successful candidate scan returns a position that is unoccupied, whose
conflicts avoid the occupied set (forward check) and which no occupied
position lists as a conflict (reverse check). -/
lemma tryAssign_some (u : PackedULD) (occ : List String) :
    ∀ (cands : List (String × PosInfo)) (pa : String × ℚ),
      tryAssign u occ cands = some pa →
      ∃ info, (pa.1, info) ∈ cands ∧ pa.1 ∉ occ ∧
        (∀ c ∈ info.conflicts, c ∉ occ) ∧
        (∀ q ∈ occ, pa.1 ∉ conflictsOf q) := by
  intro cands
  induction cands with
  | nil => intro pa h; cases h
  | cons pr rest ih =>
    intro pa h
    rcases pr with ⟨pid, info⟩
    rw [tryAssign] at h
    by_cases h1 : pid ∈ occ
    · rw [if_pos h1] at h
      obtain ⟨info2, hm, ha, hb, hc⟩ := ih pa h
      exact ⟨info2, List.mem_cons_of_mem _ hm, ha, hb, hc⟩
    · rw [if_neg h1] at h
      by_cases h2 : info.conflicts.any (fun c => occ.contains c) = true
      · rw [if_pos h2] at h
        obtain ⟨info2, hm, ha, hb, hc⟩ := ih pa h
        exact ⟨info2, List.mem_cons_of_mem _ hm, ha, hb, hc⟩
      · rw [if_neg h2] at h
        by_cases h3 : occ.any (fun q => (conflictsOf q).contains pid) = true
        · rw [if_pos h3] at h
          obtain ⟨info2, hm, ha, hb, hc⟩ := ih pa h
          exact ⟨info2, List.mem_cons_of_mem _ hm, ha, hb, hc⟩
        · rw [if_neg h3] at h
          by_cases h4 : ¬ check_linear_load u info.arm = true
          · rw [if_pos h4] at h
            obtain ⟨info2, hm, ha, hb, hc⟩ := ih pa h
            exact ⟨info2, List.mem_cons_of_mem _ hm, ha, hb, hc⟩
          · rw [if_neg h4] at h
            have hpa : (pid, info.arm) = pa := Option.some.inj h
            subst hpa
            refine ⟨info, List.mem_cons_self _ _, h1, ?_, ?_⟩
            · intro c hc hcon
              apply h2
              rw [List.any_eq_true]
              exact ⟨c, hc, by simpa using hcon⟩
            · intro q hq hcon
              apply h3
              rw [List.any_eq_true]
              exact ⟨q, hq, by simpa using hcon⟩

lemma GoodOcc_perm {a b : List String} (hp : a.Perm b) (h : GoodOcc a) :
    GoodOcc b :=
  ⟨hp.nodup_iff.mp h.1,
   fun p hpm q hq hne => h.2 p (hp.mem_iff.mpr hpm) q (hp.mem_iff.mpr hq) hne⟩

lemma GoodOcc_cons {p : String} {occ : List String} (h : GoodOcc occ)
    (hnot : p ∉ occ) (hfwd : ∀ c ∈ conflictsOf p, c ∉ occ)
    (hrev : ∀ q ∈ occ, p ∉ conflictsOf q) : GoodOcc (p :: occ) := by
  refine ⟨List.nodup_cons.mpr ⟨hnot, h.1⟩, ?_⟩
  intro a ha b hb hne
  rcases List.mem_cons.mp ha with rfl | ha2
  · rcases List.mem_cons.mp hb with rfl | hb2
    · exact absurd rfl hne
    · intro hcon
      exact (hfwd b hcon) hb2
  · rcases List.mem_cons.mp hb with rfl | hb2
    · exact hrev a ha2
    · exact h.2 a ha2 b hb2 hne

lemma asgPos_mem {out : List (ℕ × Option (String × ℚ))} {i : ℕ} {p : String}
    {a : ℚ} (h : (i, some (p, a)) ∈ out) : p ∈ asgPos out :=
  List.mem_filterMap.mpr ⟨(i, some (p, a)), h, rfl⟩

/-- Invariant of the allocation loop: starting from a good occupied set, the
positions granted by the loop together with the initial set stay good. -/
lemma allocGo_good : ∀ (l : List (ℕ × PackedULD)) (occ : List String),
    GoodOcc occ → GoodOcc (asgPos (allocGo l occ) ++ occ) := by
  intro l
  induction l with
  | nil => intro occ h; exact h
  | cons p rest ih =>
    intro occ h
    rcases p with ⟨i, u⟩
    rw [allocGo]
    by_cases ht : truthyStr u.assigned_position = true
    · rw [if_pos ht]
      exact ih occ h
    · rw [if_neg ht]
      cases hta : tryAssign u occ (sortedCandidates u.uld_type) with
      | none =>
        have := ih occ h
        simpa [asgPos, List.filterMap_cons] using this
      | some pa =>
        obtain ⟨info, hmem, hnot, hfwd, hrev⟩ :=
          tryAssign_some u occ _ pa hta
        have hconf : conflictsOf pa.1 = info.conflicts :=
          conflictsOf_candidate hmem
        have hocc2 : GoodOcc (pa.1 :: occ) :=
          GoodOcc_cons h hnot (by rw [hconf]; exact hfwd) hrev
        have hih := ih (pa.1 :: occ) hocc2
        have hperm : (asgPos (allocGo rest (pa.1 :: occ)) ++ (pa.1 :: occ)).Perm
            (pa.1 :: (asgPos (allocGo rest (pa.1 :: occ)) ++ occ)) :=
          List.perm_middle
        have hgoal := GoodOcc_perm hperm hih
        simpa [asgPos, List.filterMap_cons] using hgoal

/-- Association-list lookup success implies membership (nat keys). -/
lemma mem_of_lookup_eq_some {β : Type} {k : ℕ} {v : β} :
    ∀ {l : List (ℕ × β)}, List.lookup k l = some v → (k, v) ∈ l := by
  intro l
  induction l with
  | nil => intro h; cases h
  | cons p rest ih =>
    intro h
    rcases p with ⟨k2, v2⟩
    rw [List.lookup_cons] at h
    cases hbeq : (k == k2) with
    | true =>
      simp only [hbeq] at h
      have hk : k = k2 := by simpa using hbeq
      have hv : v2 = v := Option.some.inj h
      subst hk; subst hv
      exact List.mem_cons_self _ _
    | false =>
      simp only [hbeq] at h
      exact List.mem_cons_of_mem _ (ih h)

/-- Distinct loop-output entries never grant the same position. -/
lemma asg_inj : ∀ (out : List (ℕ × Option (String × ℚ))), (asgPos out).Nodup →
    ∀ {i : ℕ} {p : String} {a : ℚ} {j : ℕ} {q : String} {b : ℚ},
      (i, some (p, a)) ∈ out → (j, some (q, b)) ∈ out → i ≠ j → p ≠ q := by
  intro out
  induction out with
  | nil =>
    intro _ i p a j q b h
    cases h
  | cons e rest ih =>
    intro hnd i p a j q b h1 h2 hij
    rcases List.mem_cons.mp h1 with rfl | h1p
    · rcases List.mem_cons.mp h2 with he | h2p
      · have : j = i := congrArg Prod.fst he
        exact absurd this.symm hij
      · have hq : q ∈ asgPos rest := asgPos_mem h2p
        have hnd2 : (p :: asgPos rest).Nodup := by
          simpa [asgPos, List.filterMap_cons] using hnd
        intro hpq
        rw [← hpq] at hq
        exact (List.nodup_cons.mp hnd2).1 hq
    · rcases List.mem_cons.mp h2 with rfl | h2p
      · have hp : p ∈ asgPos rest := asgPos_mem h1p
        have hnd2 : (q :: asgPos rest).Nodup := by
          simpa [asgPos, List.filterMap_cons] using hnd
        intro hpq
        rw [hpq] at hp
        exact (List.nodup_cons.mp hnd2).1 hp
      · have hnd2 : (asgPos rest).Nodup := by
          rcases e with ⟨ie, oe⟩
          cases oe with
          | none => simpa [asgPos, List.filterMap_cons] using hnd
          | some pa0 =>
            have h0 : (pa0.1 :: asgPos rest).Nodup := by
              simpa [asgPos, List.filterMap_cons] using hnd
            exact (List.nodup_cons.mp h0).2
        exact ih hnd2 h1p h2p hij

lemma conflictFreeB_of_pairwise : ∀ {l : List PackedULD},
    List.Pairwise (fun u v => pairConflictFreeB u v = true) l →
    conflictFreeB l = true := by
  intro l
  induction l with
  | nil => intro _; rfl
  | cons u rest ih =>
    intro h
    rcases List.pairwise_cons.mp h with ⟨h1, h2⟩
    rw [conflictFreeB, Bool.and_eq_true]
    exact ⟨List.all_eq_true.mpr h1, ih h2⟩

lemma distinctPosB_of_pairwise : ∀ {l : List PackedULD},
    List.Pairwise (fun u v => pairDistinctB u v = true) l →
    distinctPosB l = true := by
  intro l
  induction l with
  | nil => intro _; rfl
  | cons u rest ih =>
    intro h
    rcases List.pairwise_cons.mp h with ⟨h1, h2⟩
    rw [distinctPosB, Bool.and_eq_true]
    exact ⟨List.all_eq_true.mpr h1, ih h2⟩

/-- The per-pair fact behind allocation correctness: writing back two
assignments with distinct original indices from a good loop output yields a
conflict-free and distinct pair of positions. -/
lemma applyAsg_pairs (asg : List (ℕ × Option (String × ℚ)))
    (hgood : GoodOcc (asgPos asg)) (a b : ℕ × PackedULD)
    (hna : a.2.assigned_position = none) (hnb : b.2.assigned_position = none)
    (hab : a.1 ≠ b.1) :
    pairConflictFreeB (applyAsg asg a) (applyAsg asg b) = true ∧
    pairDistinctB (applyAsg asg a) (applyAsg asg b) = true := by
  cases hla : List.lookup a.1 asg with
  | none =>
    simp [pairConflictFreeB, pairDistinctB, posOK, applyAsg, hla, hna]
  | some oa =>
    cases oa with
    | none =>
      simp [pairConflictFreeB, pairDistinctB, posOK, applyAsg, hla]
    | some pa =>
      cases hlb : List.lookup b.1 asg with
      | none =>
        simp [pairConflictFreeB, pairDistinctB, posOK, applyAsg, hla, hlb, hnb]
      | some ob =>
        cases ob with
        | none =>
          simp [pairConflictFreeB, pairDistinctB, posOK, applyAsg, hla, hlb]
        | some pb =>
          by_cases hua : pa.1 = "UNASSIGNED"
          · simp [pairConflictFreeB, pairDistinctB, posOK, applyAsg, hla, hlb,
              hua]
          · by_cases hub : pb.1 = "UNASSIGNED"
            · simp [pairConflictFreeB, pairDistinctB, posOK, applyAsg, hla, hlb,
                hua, hub]
            · have hmema : (a.1, some (pa.1, pa.2)) ∈ asg := by
                simpa using mem_of_lookup_eq_some hla
              have hmemb : (b.1, some (pb.1, pb.2)) ∈ asg := by
                simpa using mem_of_lookup_eq_some hlb
              have hpq : pa.1 ≠ pb.1 := asg_inj asg hgood.1 hmema hmemb hab
              have hpmem : pa.1 ∈ asgPos asg := asgPos_mem hmema
              have hqmem : pb.1 ∈ asgPos asg := asgPos_mem hmemb
              have hc1 : pb.1 ∉ conflictsOf pa.1 :=
                hgood.2 pa.1 hpmem pb.1 hqmem hpq
              have hc2 : pa.1 ∉ conflictsOf pb.1 :=
                hgood.2 pb.1 hqmem pa.1 hpmem hpq.symm
              constructor
              · simp [pairConflictFreeB, posOK, applyAsg, hla, hlb, hua, hub,
                  hc1, hc2]
              · simp [pairDistinctB, posOK, applyAsg, hla, hlb, hua, hub, hpq]

/-- On a list of position-unassigned ULDs, allocation yields pairwise
conflict-free and pairwise distinct assignments. -/
lemma allocateAll_pairwise (ulds : List PackedULD)
    (hnone : ∀ u ∈ ulds, u.assigned_position = none) :
    List.Pairwise
      (fun u v => pairConflictFreeB u v = true ∧ pairDistinctB u v = true)
      (allocateAll ulds) := by
  rw [allocateAll]
  have hgood0 : GoodOcc ([] : List String) :=
    ⟨List.nodup_nil, by intro p hp; cases hp⟩
  have hgood := allocGo_good
    (List.insertionSort (fun a b : ℕ × PackedULD => uldPriority a.2 ≤ uldPriority b.2)
      ulds.enum) [] hgood0
  rw [List.append_nil] at hgood
  have hkeys : List.Pairwise (fun a b : ℕ × PackedULD => a.1 ≠ b.1) ulds.enum :=
    List.pairwise_map.mp (List.nodup_enum_map_fst ulds)
  refine List.pairwise_map.mpr (List.Pairwise.imp_of_mem ?_ hkeys)
  intro a b ha hb hab
  have hamem : a.2 ∈ ulds := by
    rcases a with ⟨i, u⟩
    exact List.getElem?_mem (List.mk_mem_enum_iff_getElem?.mp ha)
  have hbmem : b.2 ∈ ulds := by
    rcases b with ⟨j, v⟩
    exact List.getElem?_mem (List.mk_mem_enum_iff_getElem?.mp hb)
  exact applyAsg_pairs _ hgood a b (hnone _ hamem) (hnone _ hbmem) hab

/-- C3: after allocation, the assigned positions in plan_flight's packed list
are conflict-free in both directions: for any two distinct packed ULDs with
real positions p and q, q is not in conflicts(p) and p is not in conflicts(q).
In particular, once a main-deck row-center position zC (whose conflict list
holds zL, zR and the next row's L/R/C) is occupied, none of those five
positions is ever assigned to another ULD.  Holds for every solver oracle and
every input. -/
theorem C3_allocation_conflict_free (solver : SolverFun) (cs : List CargoRequest)
    (gs : List ForcedGroup) :
    conflictFreeB (planFlightState solver cs gs).packed_ulds = true := by
  apply conflictFreeB_of_pairwise
  have h := allocateAll_pairwise (planPhases012 solver cs gs).packed_ulds
    (planPhases012_allNone solver cs gs)
  exact h.imp (fun hp => hp.1)

/-- C10: the allocator never grants one aircraft position to two ULDs: the
real assigned positions in plan_flight's packed list are pairwise distinct.
Holds for every solver oracle and every input. -/
theorem C10_positions_distinct (solver : SolverFun) (cs : List CargoRequest)
    (gs : List ForcedGroup) :
    distinctPosB (planFlightState solver cs gs).packed_ulds = true := by
  apply distinctPosB_of_pairwise
  have h := allocateAll_pairwise (planPhases012 solver cs gs).packed_ulds
    (planPhases012_allNone solver cs gs)
  exact h.imp (fun hp => hp.2)

/-! ### Packing invariants through phases 0-2 (weight, volume, SHC) -/

lemma shcCompat_symm {s1 s2 : String} (h : shcCompat s1 s2) : shcCompat s2 s1 :=
  ⟨h.2, h.1⟩

lemma check_mix_spec {codes : List String} {s : String}
    (h : check_mix codes s = true) : ∀ e ∈ codes, shcCompat e s := by
  rw [check_mix, Bool.and_eq_true] at h
  obtain ⟨h1, h2⟩ := h
  rw [List.all_eq_true] at h1 h2
  intro e he
  constructor
  · have := h2 e he
    simpa using this
  · intro hcon
    have := h1 e hcon
    simp at this
    exact this he

lemma checkMixAll_spec {codes : List String} {c : CargoRequest}
    (h : checkMixAll codes c = true) :
    ∀ s ∈ c.shc, ∀ e ∈ codes, shcCompat e s := by
  rw [checkMixAll, List.all_eq_true] at h
  intro s hs e he
  exact check_mix_spec (h s hs) e he

lemma foldlInsert_mem : ∀ (new codes : List String) (s : String),
    (s ∈ new.foldl (fun acc x => if x ∈ acc then acc else acc ++ [x]) codes ↔
      s ∈ codes ∨ s ∈ new) := by
  intro new
  induction new with
  | nil => intro codes s; simp
  | cons x xs ih =>
    intro codes s
    rw [List.foldl_cons]
    by_cases hx : x ∈ codes
    · rw [if_pos hx, ih]
      constructor
      · rintro (h | h)
        exacts [Or.inl h, Or.inr (List.mem_cons_of_mem _ h)]
      · rintro (h | h)
        · exact Or.inl h
        · rcases List.mem_cons.mp h with rfl | h
          exacts [Or.inl hx, Or.inr h]
    · rw [if_neg hx, ih]
      simp only [List.mem_append, List.mem_singleton, List.mem_cons]
      tauto

lemma addItem_codes_mem {u : PackedULD} {c : CargoRequest} {s : String} :
    s ∈ (addItem u c).shc_codes ↔ s ∈ u.shc_codes ∨ s ∈ c.shc :=
  foldlInsert_mem c.shc u.shc_codes s

lemma codesCover_addItem {u : PackedULD} {c : CargoRequest}
    (h : codesCover u) : codesCover (addItem u c) := by
  intro d hd s hs
  have hd2 : d ∈ u.items ++ [c] := hd
  rw [addItem_codes_mem]
  rcases List.mem_append.mp hd2 with hd3 | hd3
  · exact Or.inl (h d hd3 s hs)
  · rw [List.mem_singleton.mp hd3] at hs
    exact Or.inr hs

lemma crossOK_singleton (c : CargoRequest) : crossOK [c] := by
  refine ⟨?_, trivial⟩
  intro c2 h
  cases h

lemma crossOK_append_single {l : List CargoRequest} {c : CargoRequest}
    (hl : crossOK l)
    (hcomp : ∀ c2 ∈ l, ∀ s1 ∈ c2.shc, ∀ s2 ∈ c.shc, shcCompat s1 s2) :
    crossOK (l ++ [c]) := by
  induction l with
  | nil => exact crossOK_singleton c
  | cons d rest ih =>
    rw [List.cons_append]
    refine ⟨?_, ih hl.2 (fun c2 h => hcomp c2 (List.mem_cons_of_mem _ h))⟩
    intro c2 hc2 s1 hs1 s2 hs2
    rcases List.mem_append.mp hc2 with h | h
    · exact hl.1 c2 h s1 hs1 s2 hs2
    · rw [List.mem_singleton.mp h] at hs2
      exact hcomp d (List.mem_cons_self _ _) s1 hs1 s2 hs2

lemma crossOK_pairs {l : List CargoRequest} (h : crossOK l) :
    ∀ c1 ∈ l, ∀ c2 ∈ l, c1 ≠ c2 →
      ∀ s1 ∈ c1.shc, ∀ s2 ∈ c2.shc, shcCompat s1 s2 := by
  induction l with
  | nil =>
    intro c1 h1
    cases h1
  | cons d rest ih =>
    intro c1 h1 c2 h2 hne s1 hs1 s2 hs2
    rcases List.mem_cons.mp h1 with he1 | h1'
    · rcases List.mem_cons.mp h2 with he2 | h2'
      · rw [he1, he2] at hne
        exact absurd rfl hne
      · rw [he1] at hs1
        exact h.1 c2 h2' s1 hs1 s2 hs2
    · rcases List.mem_cons.mp h2 with he2 | h2'
      · rw [he2] at hs2
        exact shcCompat_symm (h.1 c1 h1' s2 hs2 s1 hs1)
      · exact ih h.2 c1 h1' c2 h2' hne s1 hs1 s2 hs2

lemma shcCompatB_iff {s1 s2 : String} : shcCompatB s1 s2 = true ↔ shcCompat s1 s2 := by
  simp [shcCompatB, shcCompat]

lemma crossPairsB_of_crossOK : ∀ {l : List CargoRequest}, crossOK l →
    crossPairsB l = true := by
  intro l
  induction l with
  | nil => intro _; rfl
  | cons c rest ih =>
    intro h
    rw [crossPairsB, Bool.and_eq_true]
    refine ⟨List.all_eq_true.mpr ?_, ih h.2⟩
    intro c2 hc2
    rw [List.all_eq_true]
    intro s1 hs1
    rw [List.all_eq_true]
    intro s2 hs2
    exact shcCompatB_iff.mpr (h.1 c2 hc2 s1 hs1 s2 hs2)

lemma SPECS_tare_bounds {t : String} {sp : ULDSpec} (h : SPECS t = some sp) :
    0 ≤ sp.tare ∧ sp.tare ≤ sp.max_gross := by
  unfold SPECS at h
  split_ifs at h <;> cases h <;> norm_num

lemma strLeads_append (p s : String) : strLeads p (p ++ s) = true := by
  rw [strLeads]
  have h : (p ++ s).toList = p.toList ++ s.toList := by simp [String.toList]
  rw [h]
  induction p.toList with
  | nil => rfl
  | cons a rest ih => simpa [leadsWith] using ih

/-- Transfer of the packing invariant across a status/purity update. -/
lemma UldOK_setStatus {u : PackedULD} {s : String} (h : UldOK u) :
    UldOK { u with status := s } := h

lemma UldOK_setClosedPure {u : PackedULD} (h : UldOK u) :
    UldOK { u with status := "CLOSED", is_pure := true } := h

/-- Adding a checked item preserves the packing invariant. -/
lemma UldOK_addItem {u : PackedULD} {c : CargoRequest} {sp : ULDSpec}
    (hsp : SPECS u.uld_type = some sp) (hok : UldOK u)
    (hmix : checkMixAll u.shc_codes c = true)
    (hw : u.total_weight + c.weight + sp.tare ≤ sp.max_gross)
    (hv : u.total_volume + c.volume ≤ sp.max_vol * PACKING_LOSS_FACTOR ∨
      heuristicBorn u = true) :
    UldOK (addItem u c) := by
  obtain ⟨sp2, hsp2, hsh, _, _, hcov, hcross⟩ := hok
  have hspe : sp2 = sp := by
    rw [hsp] at hsp2
    exact (Option.some.inj hsp2).symm
  subst hspe
  refine ⟨sp2, hsp, ?_, ?_, ?_, ?_, ?_⟩
  · exact hsh
  · left
    show u.total_weight + c.weight + sp2.tare + u.shoring_weight ≤ sp2.max_gross
    rw [hsh]
    linarith
  · rcases hv with hv | hb
    · left
      exact hv
    · right
      exact hb
  · exact codesCover_addItem hcov
  · show crossOK (u.items ++ [c])
    apply crossOK_append_single hcross
    intro c2 hc2 s1 hs1 s2 hs2
    exact checkMixAll_spec hmix s2 hs2 s1 (hcov c2 hc2 s1 hs1)

/-- A freshly created heuristic/3D ULD holding one cargo satisfies the
packing invariant through its single-item escape clauses. -/
lemma UldOK_new_single {base : PackedULD} {c : CargoRequest} {sp : ULDSpec}
    (hsp : SPECS base.uld_type = some sp) (hid : heuristicBorn base = true)
    (hitems : base.items = []) (hw : base.total_weight = 0)
    (hvol : base.total_volume = 0) (hcodes : base.shc_codes = [])
    (hshore : base.shoring_weight = 0) :
    UldOK (addItem base c) := by
  refine ⟨sp, hsp, hshore, ?_, ?_, ?_, ?_⟩
  · right
    constructor
    · exact hid
    · refine ⟨c, ?_, ?_⟩
      · show base.items ++ [c] = [c]
        rw [hitems]
        rfl
      · show base.total_weight + c.weight = c.weight
        rw [hw, zero_add]
  · right
    exact hid
  · intro d hd s hs
    have hd2 : d ∈ base.items ++ [c] := hd
    rw [hitems, List.nil_append] at hd2
    rw [List.mem_singleton.mp hd2] at hs
    exact addItem_codes_mem.mpr (Or.inr hs)
  · show crossOK (base.items ++ [c])
    rw [hitems, List.nil_append]
    exact crossOK_singleton c

lemma gross_weight_eq {u : PackedULD} {sp : ULDSpec}
    (h : SPECS u.uld_type = some sp) :
    u.gross_weight = u.total_weight + sp.tare + u.shoring_weight := by
  rw [PackedULD.gross_weight, h]

lemma heuristicBorn_of_OpenPkd {u : PackedULD} (h : OpenPkd u)
    (hs : u.status = "OPEN") : heuristicBorn u = true := by
  rcases h hs with h1 | h1 <;> simp [heuristicBorn, h1]

/-- An empty catalogued ULD satisfies the packing invariant. -/
lemma UldOK_empty {u : PackedULD} {sp : ULDSpec}
    (hsp : SPECS u.uld_type = some sp) (hitems : u.items = [])
    (hw : u.total_weight = 0) (hv : u.total_volume = 0)
    (hshore : u.shoring_weight = 0) : UldOK u := by
  refine ⟨sp, hsp, hshore, ?_, ?_, ?_, ?_⟩
  · left
    rw [hw, hshore]
    have := SPECS_tare_bounds hsp
    linarith
  · left
    rw [hv]
    have h1 := SPECS_max_vol_pos hsp
    have h2 : (0 : ℚ) < PACKING_LOSS_FACTOR := by norm_num [PACKING_LOSS_FACTOR]
    positivity
  · intro d hd
    rw [hitems] at hd
    cases hd
  · rw [hitems]
    trivial

/-- First-fit group placement preserves type homogeneity and the invariant. -/
lemma tryPlaceGroup_UldOK {c : CargoRequest} {t : String} {sp : ULDSpec}
    (hspt : SPECS t = some sp) :
    ∀ {ulds ulds2 : List PackedULD},
      tryPlaceGroup (sp.max_gross - sp.tare) (sp.max_vol * PACKING_LOSS_FACTOR)
        c ulds = some ulds2 →
      (∀ u ∈ ulds, u.uld_type = t ∧ UldOK u) →
      ∀ u ∈ ulds2, u.uld_type = t ∧ UldOK u := by
  intro ulds ulds2 h hall
  obtain ⟨pre, u, post, h1, h2, hwc, hvc, hmix⟩ :=
    tryPlaceGroup_spec _ _ c ulds ulds2 h
  subst h1
  subst h2
  intro v hv
  rcases List.mem_append.mp hv with hvp | hvp
  · exact hall v (by simp [hvp])
  · rcases List.mem_cons.mp hvp with he | hvp
    · have hu := hall u (by simp)
      have hsp2 : SPECS u.uld_type = some sp := by rw [hu.1]; exact hspt
      rw [he]
      refine ⟨hu.1, ?_⟩
      exact UldOK_addItem hsp2 hu.2 hmix (by linarith) (Or.inl hvc)
    · exact hall v (by simp [hvp])

/-- The forced-group first-fit loop preserves type homogeneity and the
invariant. -/
lemma forcedFit_UldOK {t : String} {sp : ULDSpec} (hspt : SPECS t = some sp) :
    ∀ (cs : List CargoRequest) (ulds : List PackedULD),
      (∀ u ∈ ulds, u.uld_type = t ∧ UldOK u) →
      ∀ u ∈ (forcedFit (sp.max_gross - sp.tare)
        (sp.max_vol * PACKING_LOSS_FACTOR) ulds cs).1, u.uld_type = t ∧ UldOK u := by
  intro cs
  induction cs with
  | nil => intro ulds hall; exact hall
  | cons c cs ih =>
    intro ulds hall
    rw [forcedFit]
    cases h : tryPlaceGroup (sp.max_gross - sp.tare)
        (sp.max_vol * PACKING_LOSS_FACTOR) c ulds with
    | some ulds2 => exact ih ulds2 (tryPlaceGroup_UldOK hspt h hall)
    | none => exact ih ulds hall

lemma packForcedGroup_StOK1 (st : EngineState) (g : ForcedGroup)
    (cs : List CargoRequest) (h : StOK1 st) :
    StOK1 (packForcedGroup st g cs) := by
  cases hsp : SPECS g.target_uld_type with
  | none =>
    simp only [packForcedGroup, hsp]
    exact h
  | some sp =>
    cases cs with
    | nil => simp only [packForcedGroup, hsp]; exact h
    | cons c0 cs' =>
      rw [packForcedGroup_eq st g c0 cs' sp hsp]
      dsimp only
      have hgu : ∀ u ∈ (List.range g.max_uld_count).map
          (mkGroupULD g sp c0.destination), u.uld_type = g.target_uld_type ∧ UldOK u := by
        intro u hu
        rcases List.mem_map.mp hu with ⟨i, _, rfl⟩
        exact ⟨rfl, @UldOK_empty (mkGroupULD g sp c0.destination i) sp
          hsp rfl rfl rfl rfl⟩
      have hfit := forcedFit_UldOK hsp (List.insertionSort wvDesc (c0 :: cs'))
        ((List.range g.max_uld_count).map (mkGroupULD g sp c0.destination)) hgu
      have hnew : ∀ u ∈ (((forcedFit (sp.max_gross - sp.tare)
          (sp.max_vol * PACKING_LOSS_FACTOR)
          ((List.range g.max_uld_count).map (mkGroupULD g sp c0.destination))
          (List.insertionSort wvDesc (c0 :: cs'))).1.filter
            (fun u => u.items ≠ [])).map
          (fun u => { u with status := "CLOSED", is_pure := true })),
          UldOK u ∧ OpenPkd u := by
        intro u hu
        rcases List.mem_map.mp hu with ⟨v, hv, rfl⟩
        refine ⟨UldOK_setClosedPure (hfit v (List.mem_filter.mp hv).1).2, ?_⟩
        intro hopen
        simp at hopen
      have hsplit : ∀ (st2 : EngineState), st2.packed_ulds = st.packed_ulds ++
          (((forcedFit (sp.max_gross - sp.tare) (sp.max_vol * PACKING_LOSS_FACTOR)
            ((List.range g.max_uld_count).map (mkGroupULD g sp c0.destination))
            (List.insertionSort wvDesc (c0 :: cs'))).1.filter
              (fun u => u.items ≠ [])).map
            (fun u => { u with status := "CLOSED", is_pure := true })) → StOK1 st2 := by
        intro st2 heq
        constructor
        · intro u hu
          rw [heq] at hu
          rcases List.mem_append.mp hu with h2 | h2
          · exact h.1 u h2
          · exact (hnew u h2).1
        · intro u hu
          rw [heq] at hu
          rcases List.mem_append.mp hu with h2 | h2
          · exact h.2 u h2
          · exact (hnew u h2).2
      rcases eq_or_ne (forcedFit (sp.max_gross - sp.tare)
          (sp.max_vol * PACKING_LOSS_FACTOR)
          ((List.range g.max_uld_count).map (mkGroupULD g sp c0.destination))
          (List.insertionSort wvDesc (c0 :: cs'))).2 [] with hl | hl
      · rw [if_neg (not_not_intro hl)]
        exact hsplit _ rfl
      · rw [if_pos hl]
        exact hsplit _ rfl

lemma heuristicPack_StOK1 (st : EngineState) (cargo : CargoRequest)
    (isFloating : Bool) (h : StOK1 st) :
    StOK1 (heuristicPack st cargo isFloating) := by
  simp only [heuristicPack]
  split
  · exact h
  · next sp hsp =>
    split
    · next ulds hm =>
      have hm2 : heurMerge cargo (match cargo.assigned_uld_type with
          | some t => if t = "" then (recommend_type cargo).rtype else t
          | none => (recommend_type cargo).rtype) sp.max_gross
          st.packed_ulds = some ulds := by
        cases isFloating with
        | true => simp at hm
        | false => simpa using hm
      obtain ⟨pre, u, post, h1, h2, htype, hopen, hdest, hmix, hwc⟩ :=
        heurMerge_spec cargo _ sp.max_gross st.packed_ulds ulds hm2
      have hmemu : u ∈ st.packed_ulds := by rw [h1]; simp
      have hu := h.1 u hmemu
      have hop := h.2 u hmemu
      have hsp2 : SPECS u.uld_type = some sp := by rw [htype]; exact hsp
      have hsh : u.shoring_weight = 0 := by
        obtain ⟨sp3, _, hsh3, -⟩ := hu
        exact hsh3
      have hgw : u.gross_weight = u.total_weight + sp.tare + u.shoring_weight :=
        gross_weight_eq hsp2
      have hok2 : UldOK (addItem u cargo) := by
        apply UldOK_addItem hsp2 hu hmix
        · rw [hgw, hsh] at hwc
          linarith
        · exact Or.inr (heuristicBorn_of_OpenPkd hop hopen)
      constructor
      · intro v hv
        rw [h2] at hv
        rcases List.mem_append.mp hv with h3 | h3
        · exact h.1 v (by rw [h1]; simp [h3])
        · rcases List.mem_cons.mp h3 with he | h3
          · rw [he]
            exact hok2
          · exact h.1 v (by rw [h1]; simp [h3])
      · intro v hv
        rw [h2] at hv
        rcases List.mem_append.mp hv with h3 | h3
        · exact h.2 v (by rw [h1]; simp [h3])
        · rcases List.mem_cons.mp h3 with he | h3
          · rw [he]
            exact hop
          · exact h.2 v (by rw [h1]; simp [h3])
    · next hm =>
      have hnewOK : ∀ (u1 : PackedULD), u1.uld_type = (match cargo.assigned_uld_type with
          | some t => if t = "" then (recommend_type cargo).rtype else t
          | none => (recommend_type cargo).rtype) →
          heuristicBorn u1 = true → u1.items = [] → u1.total_weight = 0 →
          u1.total_volume = 0 → u1.shc_codes = [] → u1.shoring_weight = 0 →
          UldOK (addItem u1 cargo) := by
        intro u1 ht hb hi hw hv hc hsh
        exact UldOK_new_single (by rw [ht]; exact hsp) hb hi hw hv hc hsh
      constructor
      · intro v hv
        rcases List.mem_append.mp hv with h3 | h3
        · exact h.1 v h3
        · rw [List.mem_singleton.mp h3]
          cases isFloating with
          | true =>
            apply hnewOK _ rfl _ rfl rfl rfl rfl rfl
            simp [heuristicBorn, strLeads_append]
          | false =>
            apply hnewOK _ rfl _ rfl rfl rfl rfl rfl
            simp [heuristicBorn, strLeads_append]
      · intro v hv
        rcases List.mem_append.mp hv with h3 | h3
        · exact h.2 v h3
        · rw [List.mem_singleton.mp h3]
          cases isFloating with
          | true =>
            intro hopen
            simp [addItem] at hopen
          | false =>
            intro _
            left
            exact strLeads_append "SPL-" _

/-- Each iteration of the 3D loop appends one freshly built 3D- ULD, which the
single-item escape clauses cover. -/
lemma pack3DLoop_StOK1 {sp : ULDSpec} {t : String} (hspt : SPECS t = some sp)
    (cargo : CargoRequest) (perW perV : ℚ) (maxPcs : ℕ) :
    ∀ (fuel : ℕ) (st : EngineState) (pcs : ℕ), StOK1 st →
      StOK1 (pack3DLoop sp cargo t perW perV maxPcs fuel st pcs) := by
  intro fuel
  induction fuel with
  | zero => intro st pcs h; exact h
  | succ fuel ih =>
    intro st pcs h
    cases pcs with
    | zero => exact h
    | succ pcs =>
      show StOK1 (pack3DLoop sp cargo t perW perV maxPcs (fuel + 1) st (pcs + 1))
      rw [pack3DLoop]
      dsimp only
      split
      · exact ⟨fun u hu => h.1 u hu, fun u hu => h.2 u hu⟩
      · split
        · exact h
        · apply ih
          constructor
          · intro u hu
            rcases List.mem_append.mp hu with h2 | h2
            · exact h.1 u h2
            · rw [List.mem_singleton.mp h2]
              exact UldOK_setStatus (UldOK_new_single hspt
                (by simp [heuristicBorn, strLeads_append]) rfl rfl rfl rfl rfl)
          · intro u hu
            rcases List.mem_append.mp hu with h2 | h2
            · exact h.2 u h2
            · rw [List.mem_singleton.mp h2]
              intro _
              right
              exact strLeads_append "3D-" _

lemma pack3DCargo_StOK1 (st : EngineState) (cargo : CargoRequest)
    (suggested : String) (h : StOK1 st) :
    StOK1 (pack3DCargo st cargo suggested) := by
  rw [pack3DCargo]
  split
  · exact h
  · dsimp only
    split
    · exact ⟨fun u hu => h.1 u hu, fun u hu => h.2 u hu⟩
    · split
      · exact h
      · next sp hsp => exact pack3DLoop_StOK1 hsp cargo _ _ _ _ _ _ h

/-- One step of phase 1 preserves the open-ULD packing invariant. -/
lemma phase1Step_StOK1 (acc : EngineState × List CargoRequest)
    (c : CargoRequest) (h : StOK1 acc.1) : StOK1 (phase1Step acc c).1 := by
  rw [phase1Step]
  dsimp only
  repeat' split
  all_goals first
    | exact h
    | exact ⟨fun u hu => h.1 u hu, fun u hu => h.2 u hu⟩
    | exact heuristicPack_StOK1 _ _ _ h
    | exact pack3DCargo_StOK1 _ _ _ h

lemma phase1Fold_StOK1 :
    ∀ (rem : List CargoRequest) (acc : EngineState × List CargoRequest),
      StOK1 acc.1 → StOK1 (rem.foldl phase1Step acc).1 := by
  intro rem
  induction rem with
  | nil => intro acc h; exact h
  | cons c rem ih =>
    intro acc h
    rw [List.foldl_cons]
    exact ih _ (phase1Step_StOK1 acc c h)

lemma phase0_StOK1 (exploded : List CargoRequest) (gs : List ForcedGroup)
    (st : EngineState) (h : StOK1 st) :
    StOK1 (phase0 exploded gs st).1 := by
  rw [phase0]
  have hgen : ∀ (gs' : List ForcedGroup) (acc : EngineState × List String),
      StOK1 acc.1 → StOK1 (gs'.foldl (fun acc g =>
        let matched := exploded.filter (matchesGroup g)
        if matched ≠ [] then
          (packForcedGroup acc.1 g matched, acc.2 ++ matched.map (fun c => c.id))
        else acc) acc).1 := by
    intro gs'
    induction gs' with
    | nil => intro acc h2; exact h2
    | cons g gs' ih =>
      intro acc h2
      rw [List.foldl_cons]
      apply ih
      dsimp only
      split
      · exact packForcedGroup_StOK1 _ _ _ h2
      · exact h2
  exact hgen gs (st, []) h

lemma addItem_total_weight (u : PackedULD) (c : CargoRequest) :
    (addItem u c).total_weight = u.total_weight + c.weight := rfl

lemma addItem_total_volume (u : PackedULD) (c : CargoRequest) :
    (addItem u c).total_volume = u.total_volume + c.volume := rfl

lemma addItem_items (u : PackedULD) (c : CargoRequest) :
    (addItem u c).items = u.items ++ [c] := rfl

lemma addItem_uld_type (u : PackedULD) (c : CargoRequest) :
    (addItem u c).uld_type = u.uld_type := rfl

lemma addItem_shoring (u : PackedULD) (c : CargoRequest) :
    (addItem u c).shoring_weight = u.shoring_weight := rfl

lemma foldlW_shift : ∀ (l : List CargoRequest) (a : ℚ),
    l.foldl (fun a c => a + c.weight) a = a + sumWeight l := by
  intro l
  induction l with
  | nil => intro a; simp [sumWeight]
  | cons c rest ih =>
    intro a
    rw [sumWeight, List.foldl_cons, List.foldl_cons, ih, ih]
    ring

lemma foldlV_shift : ∀ (l : List CargoRequest) (a : ℚ),
    l.foldl (fun a c => a + c.volume) a = a + sumVolume l := by
  intro l
  induction l with
  | nil => intro a; simp [sumVolume]
  | cons c rest ih =>
    intro a
    rw [sumVolume, List.foldl_cons, List.foldl_cons, ih, ih]
    ring

lemma sumWeight_cons (c : CargoRequest) (b : List CargoRequest) :
    sumWeight (c :: b) = c.weight + sumWeight b := by
  rw [sumWeight, List.foldl_cons, foldlW_shift]
  ring

lemma sumVolume_cons (c : CargoRequest) (b : List CargoRequest) :
    sumVolume (c :: b) = c.volume + sumVolume b := by
  rw [sumVolume, List.foldl_cons, foldlV_shift]
  ring

/-- Field bookkeeping of folding addItem over a bin. -/
lemma foldl_addItem_fields : ∀ (b : List CargoRequest) (u : PackedULD),
    (b.foldl addItem u).total_weight = u.total_weight + sumWeight b ∧
    (b.foldl addItem u).total_volume = u.total_volume + sumVolume b ∧
    (b.foldl addItem u).items = u.items ++ b ∧
    (b.foldl addItem u).uld_type = u.uld_type ∧
    (b.foldl addItem u).shoring_weight = u.shoring_weight := by
  intro b
  induction b with
  | nil =>
    intro u
    refine ⟨?_, ?_, by simp, rfl, rfl⟩
    · rw [sumWeight]; simp
    · rw [sumVolume]; simp
  | cons c rest ih =>
    intro u
    rw [List.foldl_cons]
    obtain ⟨h1, h2, h3, h4, h5⟩ := ih (addItem u c)
    refine ⟨?_, ?_, ?_, ?_, ?_⟩
    · rw [h1, addItem_total_weight, sumWeight_cons]; ring
    · rw [h2, addItem_total_volume, sumVolume_cons]; ring
    · rw [h3, addItem_items]; simp
    · rw [h4, addItem_uld_type]
    · rw [h5, addItem_shoring]

lemma crossOK_of_noshc : ∀ {l : List CargoRequest},
    (∀ c ∈ l, c.shc = []) → crossOK l := by
  intro l
  induction l with
  | nil => intro _; trivial
  | cons c rest ih =>
    intro h
    refine ⟨?_, ih (fun d hd => h d (List.mem_cons_of_mem _ hd))⟩
    intro c2 _ s1 hs1 _ _
    rw [h c (List.mem_cons_self c rest)] at hs1
    cases hs1

lemma codesCover_foldl : ∀ (b : List CargoRequest) (u : PackedULD),
    codesCover u → codesCover (b.foldl addItem u) := by
  intro b
  induction b with
  | nil => intro u h; exact h
  | cons c rest ih =>
    intro u h
    rw [List.foldl_cons]
    exact ih _ (codesCover_addItem h)

/-- Every ULD the MIP bin-packer emits, over segregation-free cargo, carries
its caps outright (independently of its id). -/
lemma optimize_UldOK {solver : SolverFun} (hs : SolverOk solver)
    {cs : List CargoRequest} {t : String} {sp : ULDSpec}
    (hsp : SPECS t = some sp)
    (hshc : ∀ c ∈ cs, c.shc = []) {u : PackedULD}
    (hu : u ∈ optimize solver cs t) :
    u.uld_type = t ∧ u.shoring_weight = 0 ∧
    u.total_weight + sp.tare + u.shoring_weight ≤ sp.max_gross ∧
    u.total_volume ≤ sp.max_vol * PACKING_LOSS_FACTOR ∧
    codesCover u ∧ crossOK u.items := by
  rw [optimize] at hu
  split at hu
  · cases hu
  · split at hu
    · next sp2 bins hsp2 hbins =>
      have hspe : sp2 = sp := by
        rw [hsp] at hsp2
        exact (Option.some.inj hsp2).symm
      subst hspe
      rcases List.mem_filterMap.mp hu with ⟨b, hb, hbu⟩
      rcases b with _ | ⟨c0, b'⟩
      · cases hbu
      · have hu2 : u = (c0 :: b').foldl addItem
            { id := "TEMP", uld_type := t, contour := sp2.contour,
              destination := c0.destination } := (Option.some.inj hbu).symm
        obtain ⟨sp3, hsp3, hperm, hcaps⟩ := hs cs t bins hbins
        have hspe3 : sp2 = sp3 := by
          rw [hsp] at hsp3
          exact Option.some.inj hsp3
        rw [← hspe3] at hcaps
        have hfits := hcaps (c0 :: b') hb
        have hbshc : ∀ d ∈ (c0 :: b'), d.shc = [] := by
          intro d hd
          exact hshc d (hperm.mem_iff.mp (List.mem_flatten.mpr ⟨c0 :: b', hb, hd⟩))
        obtain ⟨h1, h2, h3, h4, h5⟩ := foldl_addItem_fields (c0 :: b')
          { id := "TEMP", uld_type := t, contour := sp2.contour,
            destination := c0.destination }
        rw [hu2]
        refine ⟨h4, h5, ?_, ?_, ?_, ?_⟩
        · rw [h1, h5]
          have hw := hfits.1
          have htare := SPECS_tare_bounds hsp
          show (0 : ℚ) + sumWeight (c0 :: b') + sp2.tare + 0 ≤ sp2.max_gross
          linarith
        · rw [h2]
          have hv := hfits.2
          show (0 : ℚ) + sumVolume (c0 :: b') ≤ sp2.max_vol * PACKING_LOSS_FACTOR
          linarith
        · apply codesCover_foldl
          intro d hd
          cases hd
        · rw [h3]
          exact crossOK_of_noshc (by
            intro d hd
            rcases List.mem_append.mp hd with hd2 | hd2
            · cases hd2
            · exact hbshc d hd2)
    · cases hu

/-- A successful batch top-up merge preserves the packing invariant of every
ULD in the list. -/
lemma batchMerge_StOK {t : String} {sp : ULDSpec} (hspt : SPECS t = some sp)
    {dest : String} {item : CargoRequest} {ulds ulds2 : List PackedULD}
    (h : batchMerge dest t (sp.max_gross - sp.tare)
      (sp.max_vol * PACKING_LOSS_FACTOR) item ulds = some ulds2)
    (hall : ∀ u ∈ ulds, UldOK u) : ∀ u ∈ ulds2, UldOK u := by
  obtain ⟨pre, u, post, h1, h2, _, _, htype, hmix, hwc, hvc⟩ :=
    batchMerge_spec dest t _ _ item ulds ulds2 h
  subst h1
  subst h2
  intro v hv
  rcases List.mem_append.mp hv with hvp | hvp
  · exact hall v (by simp [hvp])
  · rcases List.mem_cons.mp hvp with he | hvp
    · have hu := hall u (by simp)
      have hsp2 : SPECS u.uld_type = some sp := by rw [htype]; exact hspt
      rw [he]
      exact UldOK_addItem hsp2 hu hmix (by linarith) (Or.inl hvc)
    · exact hall v (by simp [hvp])

/-- One destination group of the smart batch keeps every ULD invariant-clean,
over segregation-free group cargo. -/
lemma smartBatchGroup_StOK {solver : SolverFun} (hs : SolverOk solver)
    {t : String} {sp : ULDSpec} (hsp : SPECS t = some sp)
    (st : EngineState) (pr : String × List CargoRequest)
    (hshc : ∀ c ∈ pr.2, c.shc = []) (h : StOK st) :
    StOK (smartBatchGroup solver t sp st pr) := by
  rw [smartBatchGroup]
  dsimp only
  have hmerge : ∀ (items : List CargoRequest) (acc : EngineState × List CargoRequest),
      (∀ c ∈ items, c.shc = []) → StOK acc.1 → (∀ c ∈ acc.2, c.shc = []) →
      StOK ((items.foldl (fun (acc : EngineState × List CargoRequest) item =>
          match batchMerge pr.1 t (sp.max_gross - sp.tare)
            (sp.max_vol * PACKING_LOSS_FACTOR) item acc.1.packed_ulds with
          | some ulds => ({ acc.1 with packed_ulds := ulds }, acc.2)
          | none => (acc.1, acc.2 ++ [item])) acc)).1 ∧
      (∀ c ∈ ((items.foldl (fun (acc : EngineState × List CargoRequest) item =>
          match batchMerge pr.1 t (sp.max_gross - sp.tare)
            (sp.max_vol * PACKING_LOSS_FACTOR) item acc.1.packed_ulds with
          | some ulds => ({ acc.1 with packed_ulds := ulds }, acc.2)
          | none => (acc.1, acc.2 ++ [item])) acc)).2, c.shc = []) := by
    intro items
    induction items with
    | nil => intro acc _ h1 h2; exact ⟨h1, h2⟩
    | cons item items ih =>
      intro acc hit h1 h2
      rw [List.foldl_cons]
      cases hbm : batchMerge pr.1 t (sp.max_gross - sp.tare)
          (sp.max_vol * PACKING_LOSS_FACTOR) item acc.1.packed_ulds with
      | some ulds =>
        simp only [hbm]
        apply ih
        · intro c hc
          exact hit c (List.mem_cons_of_mem _ hc)
        · exact batchMerge_StOK hsp hbm h1
        · exact h2
      | none =>
        simp only [hbm]
        apply ih
        · intro c hc
          exact hit c (List.mem_cons_of_mem _ hc)
        · exact h1
        · intro c hc
          rcases List.mem_append.mp hc with h3 | h3
          · exact h2 c h3
          · rw [List.mem_singleton.mp h3]
            exact hit item (List.mem_cons_self item items)
  obtain ⟨hm1, hm2⟩ := hmerge pr.2 (st, []) hshc h
    (fun c hc => absurd hc (List.not_mem_nil c))
  split
  · have happ : ∀ (os : List PackedULD) (s : EngineState),
        (∀ u ∈ os, u.uld_type = t ∧ u.shoring_weight = 0 ∧
          u.total_weight + sp.tare + u.shoring_weight ≤ sp.max_gross ∧
          u.total_volume ≤ sp.max_vol * PACKING_LOSS_FACTOR ∧
          codesCover u ∧ crossOK u.items) → StOK s →
        StOK (os.foldl (fun s u => { s with packed_ulds := s.packed_ulds ++
          [{ u with id := "OPT-" ++ pad3 (s.packed_ulds.length + 1) }] }) s) := by
      intro os
      induction os with
      | nil => intro s _ h2; exact h2
      | cons u os ih =>
        intro s hall h2
        rw [List.foldl_cons]
        refine ih _ (fun v hv => hall v (List.mem_cons_of_mem _ hv)) ?_
        intro v hv
        rcases List.mem_append.mp hv with h3 | h3
        · exact h2 v h3
        · rw [List.mem_singleton.mp h3]
          obtain ⟨ht, hsh, hw, hv2, hcc, hco⟩ := hall u (List.mem_cons_self u os)
          exact ⟨sp, by show SPECS u.uld_type = some sp; rw [ht]; exact hsp,
            hsh, Or.inl hw, Or.inl hv2, hcc, hco⟩
    exact happ _ _ (fun u hu => optimize_UldOK hs hsp hm2 hu) hm1
  · exact hm1

lemma groupByDestAux_pred (P : CargoRequest → Prop) :
    ∀ (cs : List CargoRequest) (acc : List (String × List CargoRequest)),
      (∀ pr ∈ acc, ∀ c ∈ pr.2, P c) → (∀ c ∈ cs, P c) →
      ∀ pr ∈ cs.foldl (fun acc c =>
        if acc.any (fun p => p.1 = c.destination) then
          acc.map (fun p => if p.1 = c.destination then (p.1, p.2 ++ [c]) else p)
        else acc ++ [(c.destination, [c])]) acc,
      ∀ c ∈ pr.2, P c := by
  intro cs
  induction cs with
  | nil => intro acc hacc _ pr hpr; exact hacc pr hpr
  | cons c cs ih =>
    intro acc hacc hcs
    rw [List.foldl_cons]
    apply ih
    · by_cases hany : (acc.any (fun p => p.1 = c.destination)) = true
      · rw [if_pos hany]
        intro pr hpr d hd
        rcases List.mem_map.mp hpr with ⟨q, hq, rfl⟩
        by_cases he : q.1 = c.destination
        · rw [if_pos he] at hd
          rcases List.mem_append.mp hd with h2 | h2
          · exact hacc q hq d h2
          · rw [List.mem_singleton.mp h2]
            exact hcs c (List.mem_cons_self c cs)
        · rw [if_neg he] at hd
          exact hacc q hq d hd
      · rw [if_neg hany]
        intro pr hpr d hd
        rcases List.mem_append.mp hpr with h2 | h2
        · exact hacc pr h2 d hd
        · rw [List.mem_singleton.mp h2] at hd
          rw [List.mem_singleton.mp hd]
          exact hcs c (List.mem_cons_self c cs)
    · intro d hd
      exact hcs d (List.mem_cons_of_mem _ hd)

lemma groupByDest_pred (P : CargoRequest → Prop) (cs : List CargoRequest)
    (hcs : ∀ c ∈ cs, P c) :
    ∀ pr ∈ groupByDest cs, ∀ c ∈ pr.2, P c := by
  rw [groupByDest]
  exact groupByDestAux_pred P cs []
    (fun pr hpr => absurd hpr (List.not_mem_nil pr)) hcs

lemma reExplode_pred (P : CargoRequest → Prop)
    (hstable : ∀ c : CargoRequest, P c → ∀ i : ℕ,
      P { id := c.id ++ "-" ++ toString (i + 1), destination := c.destination,
          weight := c.weight / (c.pieces : ℚ), volume := c.volume / (c.pieces : ℚ),
          pieces := 1, dims := [], shc := c.shc })
    {cs : List CargoRequest} (h : ∀ c ∈ cs, P c) :
    ∀ c ∈ reExplode cs, P c := by
  intro c hc
  rw [reExplode] at hc
  rcases List.mem_flatten.mp hc with ⟨l, hl, hcl⟩
  rcases List.mem_map.mp hl with ⟨d, hd, rfl⟩
  by_cases h1 : 1 < d.pieces
  · rw [if_pos h1] at hcl
    rcases List.mem_map.mp hcl with ⟨i, _, rfl⟩
    exact hstable d (h d hd) i
  · rw [if_neg h1] at hcl
    rw [List.mem_singleton.mp hcl]
    exact h d hd

/-- Phase 2 (smart batch) preserves the per-ULD invariant over
segregation-free cargo. -/
lemma smartBatchOptimize_StOK {solver : SolverFun} (hs : SolverOk solver)
    (st : EngineState) (cs : List CargoRequest) (t : String)
    (hshc : ∀ c ∈ cs, c.shc = []) (h : StOK st) :
    StOK (smartBatchOptimize solver st cs t) := by
  rw [smartBatchOptimize]
  split
  · exact h
  · next sp hsp =>
    have hre : ∀ c ∈ reExplode cs, c.shc = [] :=
      reExplode_pred (fun c => c.shc = []) (fun c hc _ => hc) hshc
    have hgr : ∀ pr ∈ groupByDest (reExplode cs), ∀ c ∈ pr.2, c.shc = [] :=
      groupByDest_pred (fun c => c.shc = []) (reExplode cs) hre
    have hfold : ∀ (prs : List (String × List CargoRequest)) (s : EngineState),
        (∀ pr ∈ prs, ∀ c ∈ pr.2, c.shc = []) → StOK s →
        StOK (prs.foldl (smartBatchGroup solver t sp) s) := by
      intro prs
      induction prs with
      | nil => intro s _ h2; exact h2
      | cons pr prs ih =>
        intro s hall h2
        rw [List.foldl_cons]
        exact ih _ (fun q hq => hall q (List.mem_cons_of_mem _ hq))
          (smartBatchGroup_StOK hs hsp s pr (hall pr (List.mem_cons_self pr prs)) h2)
    exact hfold _ st hgr h

/-- Every cargo phase 1 forwards into the standard batch carries no SHC
codes (the isSpecial test routes everything else to the heuristic packer). -/
lemma phase1Step_std (acc : EngineState × List CargoRequest) (c : CargoRequest) :
    ∀ d ∈ (phase1Step acc c).2, d ∈ acc.2 ∨ d.shc = [] := by
  intro d hd
  rw [phase1Step] at hd
  dsimp only at hd
  repeat' split at hd
  all_goals
    first
      | exact Or.inl hd
      | (rcases List.mem_append.mp hd with h | h
         · exact Or.inl h
         · rw [List.mem_singleton.mp h]
           right
           tauto)

lemma phase1Fold_std :
    ∀ (rem : List CargoRequest) (acc : EngineState × List CargoRequest),
      (∀ d ∈ acc.2, d.shc = []) → ∀ d ∈ (rem.foldl phase1Step acc).2, d.shc = [] := by
  intro rem
  induction rem with
  | nil => intro acc h; exact h
  | cons c rem ih =>
    intro acc h
    rw [List.foldl_cons]
    apply ih
    intro d hd
    rcases phase1Step_std acc c d hd with h2 | h2
    · exact h d h2
    · exact h2

/-- Phases 0-2 only ever build invariant-clean ULDs. -/
lemma planPhases012_StOK {solver : SolverFun} (hs : SolverOk solver)
    (newCargos : List CargoRequest) (gs : List ForcedGroup) :
    StOK (planPhases012 solver newCargos gs) := by
  rw [planPhases012]
  have hcond : ∀ (st : EngineState) (ls : List CargoRequest) (t : String),
      StOK st → (∀ d ∈ ls, d.shc = []) →
      StOK (if ls ≠ [] then smartBatchOptimize solver st ls t else st) := by
    intro st ls t h2 hl
    rcases eq_or_ne ls [] with he | he
    · rw [if_neg (not_not_intro he)]
      exact h2
    · rw [if_pos he]
      exact smartBatchOptimize_StOK hs st ls t hl h2
  have hinit : StOK1 (⟨[], [], []⟩ : EngineState) :=
    ⟨fun u hu => absurd hu (List.not_mem_nil u),
     fun u hu => absurd hu (List.not_mem_nil u)⟩
  exact hcond _ _ _
    (hcond _ _ _
      (phase1Fold_StOK1 _ _ (phase0_StOK1 _ _ _ hinit)).1
      (fun d hd => phase1Fold_std _ _
        (fun e he => absurd he (List.not_mem_nil e)) d (List.mem_filter.mp hd).1))
    (fun d hd => phase1Fold_std _ _
      (fun e he => absurd he (List.not_mem_nil e)) d (List.mem_filter.mp hd).1)

lemma UldOK_applyAsg {asg : List (ℕ × Option (String × ℚ))}
    {p : ℕ × PackedULD} (h : UldOK p.2) : UldOK (applyAsg asg p) := by
  rw [applyAsg]
  split
  · exact h
  · exact h
  · exact h

/-- Position allocation rewrites only assignment fields, so the packing
invariant carries over. -/
lemma allocateAll_UldOK {ulds : List PackedULD} (h : ∀ u ∈ ulds, UldOK u) :
    ∀ u ∈ allocateAll ulds, UldOK u := by
  intro u hu
  rw [allocateAll] at hu
  rcases List.mem_map.mp hu with ⟨p, hp, rfl⟩
  apply UldOK_applyAsg
  rcases p with ⟨i, v⟩
  have hv : ulds[i]? = some v := List.mk_mem_enum_iff_getElem?.mp hp
  exact h v (List.getElem?_mem hv)

lemma wAmendB_of_UldOK {u : PackedULD} (h : UldOK u) : wAmendB u = true := by
  obtain ⟨sp, hsp, hsh, hw, hv, hcc, hco⟩ := h
  simp only [wAmendB, hsp, Bool.and_eq_true, Bool.or_eq_true, decide_eq_true_eq]
  refine ⟨hsh, ?_⟩
  rcases hw with hw | ⟨hb, c, hitems, hwc⟩
  · exact Or.inl hw
  · right
    refine ⟨hb, ?_⟩
    rw [hitems]
    show decide (u.total_weight = c.weight) = true
    exact decide_eq_true hwc

lemma vAmendB_of_UldOK {u : PackedULD} (h : UldOK u) : vAmendB u = true := by
  obtain ⟨sp, hsp, hsh, hw, hv, hcc, hco⟩ := h
  simp only [vAmendB, hsp, Bool.or_eq_true, decide_eq_true_eq]
  rcases hv with hv | hv
  · exact Or.inl hv
  · exact Or.inr hv

lemma itemsCrossB_of_UldOK {u : PackedULD} (h : UldOK u) :
    itemsCrossB u = true := by
  obtain ⟨sp, hsp, hsh, hw, hv, hcc, hco⟩ := h
  rw [itemsCrossB]
  exact crossPairsB_of_crossOK hco

lemma noneSolver_ok : SolverOk noneSolver := by
  intro cs t bins h
  simp [noneSolver] at h

/-- C1 amended: against any conforming solver oracle, every ULD plan_flight
leaves behind satisfies the gross-weight bound
total_weight + tare + shoring_weight ≤ max_gross, except possibly a ULD
created unchecked by the heuristic or 3D packer (id prefix SPL, FLT or 3D)
holding exactly one cargo whose weight it carries verbatim; shoring_weight is
always 0. -/
theorem C1_amended (solver : SolverFun) (hs : SolverOk solver)
    (newCargos : List CargoRequest) (gs : List ForcedGroup) :
    (planFlightState solver newCargos gs).packed_ulds.all wAmendB = true := by
  rw [List.all_eq_true]
  intro u hu
  have hu2 : u ∈ allocateAll (planPhases012 solver newCargos gs).packed_ulds := hu
  exact wAmendB_of_UldOK
    (allocateAll_UldOK (planPhases012_StOK hs newCargos gs) u hu2)

/-- C1 amended witness: the no-solution oracle is conforming, and the theorem
evaluates on the 14000 kg floating-load scenario. -/
theorem C1_amended_witness :
    SolverOk noneSolver ∧
    (planFlightState noneSolver [cargoFloat] []).packed_ulds.all wAmendB = true :=
  ⟨noneSolver_ok, C1_amended noneSolver noneSolver_ok [cargoFloat] []⟩

/-- C6 amended: against any conforming solver oracle, every ULD plan_flight
leaves behind satisfies total_volume ≤ max_vol × 0.85, except possibly a ULD
created by the heuristic or 3D packer (id prefix SPL, FLT or 3D), whose volume
is unchecked. -/
theorem C6_amended (solver : SolverFun) (hs : SolverOk solver)
    (newCargos : List CargoRequest) (gs : List ForcedGroup) :
    (planFlightState solver newCargos gs).packed_ulds.all vAmendB = true := by
  rw [List.all_eq_true]
  intro u hu
  have hu2 : u ∈ allocateAll (planPhases012 solver newCargos gs).packed_ulds := hu
  exact vAmendB_of_UldOK
    (allocateAll_UldOK (planPhases012_StOK hs newCargos gs) u hu2)

/-- C6 amended witness: the no-solution oracle is conforming, and the theorem
evaluates on the 100 m3 special-cargo scenario. -/
theorem C6_amended_witness :
    SolverOk noneSolver ∧
    (planFlightState noneSolver [cargoVol] []).packed_ulds.all vAmendB = true :=
  ⟨noneSolver_ok, C6_amended noneSolver noneSolver_ok [cargoVol] []⟩

/-- C7 amended: against any conforming solver oracle, in every ULD
plan_flight leaves behind, SHC codes contributed by distinct items never
conflict (the within-one-item caveat of the correction concerns a single
cargo's own code list, which this cross-item property does not constrain). -/
theorem C7_amended (solver : SolverFun) (hs : SolverOk solver)
    (newCargos : List CargoRequest) (gs : List ForcedGroup) :
    (planFlightState solver newCargos gs).packed_ulds.all itemsCrossB = true := by
  rw [List.all_eq_true]
  intro u hu
  have hu2 : u ∈ allocateAll (planPhases012 solver newCargos gs).packed_ulds := hu
  exact itemsCrossB_of_UldOK
    (allocateAll_UldOK (planPhases012_StOK hs newCargos gs) u hu2)

/-- C7 amended witness: the no-solution oracle is conforming, and the theorem
evaluates on the AVI+RRY single-cargo scenario. -/
theorem C7_amended_witness :
    SolverOk noneSolver ∧
    (planFlightState noneSolver [cargoTwoShc] []).packed_ulds.all itemsCrossB = true :=
  ⟨noneSolver_ok, C7_amended noneSolver noneSolver_ok [cargoTwoShc] []⟩

/-- C8 witness: the scenario-7-like overflow instance (5000 kg + 3000 kg into
at most one M pallet) discharges every hypothesis of the forced-group theorem
on a fresh engine state. -/
theorem C8_forced_overflow_witness :
    SPECS groupG1.target_uld_type = some ⟨"PMC-Q6", "Q6", 6804, 120, 19, 125, 96⟩ ∧
    ([cargoV1, cargoV2] : List CargoRequest) ≠ [] ∧
    ([cargoV1, cargoV2] : List CargoRequest).Nodup ∧
    ∃ newUlds leftovers,
      (packForcedGroup ⟨[], [], []⟩ groupG1 [cargoV1, cargoV2]).packed_ulds =
        ([] : List PackedULD) ++ newUlds ∧
      (packForcedGroup ⟨[], [], []⟩ groupG1 [cargoV1, cargoV2]).rejected_cargos =
        [] ∧
      newUlds.length ≤ groupG1.max_uld_count ∧
      (∀ u ∈ newUlds, u.items ≠ [] ∧ u.status = "CLOSED" ∧ u.is_pure = true) ∧
      ((newUlds.map (fun u => u.items)).flatten ++ leftovers).Perm
        [cargoV1, cargoV2] ∧
      (∀ c ∈ leftovers, ∀ u ∈ newUlds, c ∉ u.items) ∧
      (packForcedGroup ⟨[], [], []⟩ groupG1 [cargoV1, cargoV2]).action_required =
        ([] : List PlanningFeedback) ++
          (if leftovers = [] then []
           else [⟨groupG1.group_id, "Group " ++ groupG1.group_id ++ " overflow: " ++
             toString leftovers.length ++ " pcs.", leftovers⟩]) ∧
      (generateReport (packForcedGroup ⟨[], [], []⟩ groupG1 [cargoV1, cargoV2])).action_required =
        ([] : List PlanningFeedback).map
          (fun f => ⟨f.group_id, f.message, f.remaining_cargos.length⟩) ++
          (if leftovers = [] then []
           else [⟨groupG1.group_id, "Group " ++ groupG1.group_id ++ " overflow: " ++
             toString leftovers.length ++ " pcs.", leftovers.length⟩]) :=
  ⟨by decide, by decide, by decide,
   C8_forced_overflow ⟨[], [], []⟩ groupG1 [cargoV1, cargoV2]
     ⟨"PMC-Q6", "Q6", 6804, 120, 19, 125, 96⟩ (by decide) (by decide) (by decide)⟩

end B747
